import Mathlib

/-!
Verification development for the task synchronization and prioritized
retrieval engine (`TaskService` in
`surfsense_backend/app/services/task_service.py`), together with the
`/tasks` routes and the `tasks` table schema.

The embedding models:
- connector metadata payloads as JSON-like values (`Json`), with Python
  dictionary access semantics (`dict.get` raising `AttributeError` on
  non-dict receivers, `in` raising `TypeError` on non-container
  receivers, truthiness, `or`-chains);
- the metadata extractor helpers `_is_task_document`, `_extract_priority`,
  `_extract_due_date`, `_extract_status` and the UNDONE/DONE mapping;
- the persistent state (documents, chats, tasks) as lists of records, with
  SQL `SELECT` without `ORDER BY` modelled as table (insertion) order, and
  in-place ORM row mutation modelled as positional list update;
- the four service operations `sync_tasks_from_connectors`,
  `get_tasks_filtered`, `complete_task`, `create_manual_task`, and the
  HTTP status behaviour of the `/tasks/complete` route.

`datetime.utcnow()` is modelled as an explicit `now : Int` parameter per
call; `datetime.fromisoformat` is modelled by a simplified executable
parser that accepts a leading well-formed `YYYY-MM-DD` date and rejects
malformed strings (the code only distinguishes parse success from the
raised-and-swallowed failure, and carries the parsed value opaquely).
-/

/-- JSON-like values of connector metadata payloads (Python objects
stored in the JSONB `document_metadata` column). -/
inductive Json where
  | null
  | bool (b : Bool)
  | num (n : Int)
  | str (s : String)
  | arr (xs : List Json)
  | obj (kvs : List (String × Json))
  deriving Repr

mutual

/-- Structural equality test on JSON values. -/
def Json.beq : Json → Json → Bool
  | .null, .null => true
  | .bool a, .bool b => a == b
  | .num a, .num b => a == b
  | .str a, .str b => a == b
  | .arr a, .arr b => Json.beqArr a b
  | .obj a, .obj b => Json.beqObj a b
  | _, _ => false

/-- Structural equality test on JSON arrays. -/
def Json.beqArr : List Json → List Json → Bool
  | [], [] => true
  | x :: xs, y :: ys => Json.beq x y && Json.beqArr xs ys
  | _, _ => false

/-- Structural equality test on JSON objects. -/
def Json.beqObj : List (String × Json) → List (String × Json) → Bool
  | [], [] => true
  | (k, x) :: xs, (l, y) :: ys => k == l && Json.beq x y && Json.beqObj xs ys
  | _, _ => false

end

instance : BEq Json := ⟨Json.beq⟩

mutual

theorem Json.beq_iff : ∀ a b : Json, Json.beq a b = true ↔ a = b
  | .null, .null => by simp [Json.beq]
  | .bool _, .bool _ => by simp [Json.beq]
  | .num _, .num _ => by simp [Json.beq]
  | .str _, .str _ => by simp [Json.beq]
  | .arr a, .arr b => by simp [Json.beq, Json.beqArr_iff a b]
  | .obj a, .obj b => by simp [Json.beq, Json.beqObj_iff a b]
  | .null, .bool _ | .null, .num _ | .null, .str _ | .null, .arr _ | .null, .obj _
  | .bool _, .null | .bool _, .num _ | .bool _, .str _ | .bool _, .arr _ | .bool _, .obj _
  | .num _, .null | .num _, .bool _ | .num _, .str _ | .num _, .arr _ | .num _, .obj _
  | .str _, .null | .str _, .bool _ | .str _, .num _ | .str _, .arr _ | .str _, .obj _
  | .arr _, .null | .arr _, .bool _ | .arr _, .num _ | .arr _, .str _ | .arr _, .obj _
  | .obj _, .null | .obj _, .bool _ | .obj _, .num _ | .obj _, .str _ | .obj _, .arr _ => by
    simp [Json.beq]

theorem Json.beqArr_iff : ∀ a b : List Json, Json.beqArr a b = true ↔ a = b
  | [], [] => by simp [Json.beqArr]
  | [], _ :: _ => by simp [Json.beqArr]
  | _ :: _, [] => by simp [Json.beqArr]
  | x :: xs, y :: ys => by
    simp [Json.beqArr, Json.beq_iff x y, Json.beqArr_iff xs ys]

theorem Json.beqObj_iff : ∀ a b : List (String × Json), Json.beqObj a b = true ↔ a = b
  | [], [] => by simp [Json.beqObj]
  | [], _ :: _ => by simp [Json.beqObj]
  | _ :: _, [] => by simp [Json.beqObj]
  | (k, x) :: xs, (l, y) :: ys => by
    simp [Json.beqObj, Json.beq_iff x y, Json.beqObj_iff xs ys, and_assoc]

end

instance : DecidableEq Json := fun a b =>
  decidable_of_iff (Json.beq a b = true) (Json.beq_iff a b)

instance : LawfulBEq Json where
  eq_of_beq h := (Json.beq_iff _ _).1 h
  rfl := (Json.beq_iff _ _).2 rfl

/-- Python `str.upper` (ASCII), implemented over the character list so that
it reduces in the kernel. -/
def pyUpperStr (s : String) : String := String.mk (s.data.map Char.toUpper)

/-- Helper for substring search: does `pat` occur at the head of `s`? -/
def subListAt : List Char → List Char → Bool
  | _, [] => true
  | [], _ :: _ => false
  | c :: cs, p :: ps => c == p && subListAt cs ps

/-- Helper for substring search over character lists. -/
def strContainsAux (s pat : List Char) : Bool :=
  match s with
  | [] => pat.isEmpty
  | _ :: cs => subListAt s pat || strContainsAux cs pat

/-- Python `pat in s` substring test. -/
def strContains (s pat : String) : Bool := strContainsAux s.data pat.data

/-- Python `str.replace`, fuelled so that the recursion is structural and
reduces in the kernel; the fuel (the string length) never runs out because
each step consumes at least one character. -/
def strReplaceAux (pat rep : List Char) : Nat → List Char → List Char
  | _, [] => []
  | 0, l => l
  | fuel + 1, c :: cs =>
    if subListAt (c :: cs) pat && !pat.isEmpty then
      rep ++ strReplaceAux pat rep fuel ((c :: cs).drop pat.length)
    else
      c :: strReplaceAux pat rep fuel cs

/-- Python `s.replace(pat, rep)`. -/
def strReplace (s pat rep : String) : String :=
  String.mk (strReplaceAux pat.data rep.data s.data.length s.data)

/-- Python `s[:n]` slicing on strings. -/
def strTake (s : String) (n : Nat) : String := String.mk (s.data.take n)

/-- Errors a service call can raise: Python `AttributeError` / `TypeError`
from metadata access, and SQLAlchemy `MultipleResultsFound` /
`NoResultFound` from `scalar_one_or_none` / `scalar_one`. -/
inductive PyErr where
  | attributeError
  | typeError
  | multipleResults
  | noResult
  deriving DecidableEq, Repr

/-- Python truthiness of a JSON value. -/
def pyTruthy : Json → Bool
  | .null => false
  | .bool b => b
  | .num n => n != 0
  | .str s => s != ""
  | .arr xs => !xs.isEmpty
  | .obj kvs => !kvs.isEmpty

/-- Python `a or b` on JSON values. -/
def pyOr (a b : Json) : Json := if pyTruthy a then a else b

/-- Python `d.get(k)`: `None` when the key is missing, `AttributeError`
when the receiver is not a dict. -/
def jDictGet (j : Json) (k : String) : Except PyErr Json :=
  match j with
  | .obj kvs => .ok ((kvs.lookup k).getD Json.null)
  | _ => .error .attributeError

/-- Python `d.get(k, default)`: the default only applies when the key is
missing (a stored `null` is returned as is); `AttributeError` when the
receiver is not a dict. -/
def jDictGetD (j : Json) (k : String) (d : Json) : Except PyErr Json :=
  match j with
  | .obj kvs => .ok ((kvs.lookup k).getD d)
  | _ => .error .attributeError

/-- Python `k in j` for a string key: key membership on dicts, element
equality on lists, substring on strings, `TypeError` otherwise. -/
def pyInDict (k : String) (j : Json) : Except PyErr Bool :=
  match j with
  | .obj kvs => .ok (kvs.any (fun kv => kv.1 == k))
  | .arr xs => .ok (xs.any (fun x => match x with | .str s => s == k | _ => false))
  | .str s => .ok (strContains s k)
  | _ => .error .typeError

/-- Python `j == n` against an int literal (`True == 1`, `False == 0`). -/
def jsonEqInt (j : Json) (n : Int) : Bool :=
  match j with
  | .num m => m == n
  | .bool b => (if b then (1 : Int) else 0) == n
  | _ => false

/-- Python `j == s` against a string literal. -/
def jsonEqStr (j : Json) (s : String) : Bool :=
  match j with
  | .str t => t == s
  | _ => false

/-- Python `j.upper()`: `AttributeError` unless `j` is a string. -/
def pyUpperOf (j : Json) : Except PyErr String :=
  match j with
  | .str s => .ok (pyUpperStr s)
  | _ => .error .attributeError

/-- Numeric value of a decimal digit character. -/
def digitVal (c : Char) : Nat := c.toNat - 48

/-- Simplified executable model of `datetime.fromisoformat` (after the
`"Z" → "+00:00"` rewrite done by the caller for the LINEAR branch):
accepts a string starting with a well-formed `YYYY-MM-DD` date followed by
nothing or a `T`/space separator, encoding it as `y * 10000 + m * 100 + d`;
all other strings are malformed and yield `none` (in the code, a raised
`ValueError` swallowed by the bare `except`). The time-of-day component is
not decoded; the code only carries the parsed value opaquely. -/
def parseIsoDate (s : String) : Option Int :=
  match s.data with
  | y1 :: y2 :: y3 :: y4 :: h1 :: m1 :: m2 :: h2 :: d1 :: d2 :: rest =>
    if y1.isDigit && y2.isDigit && y3.isDigit && y4.isDigit && h1 == '-' &&
        m1.isDigit && m2.isDigit && h2 == '-' && d1.isDigit && d2.isDigit then
      let y := digitVal y1 * 1000 + digitVal y2 * 100 + digitVal y3 * 10 + digitVal y4
      let m := digitVal m1 * 10 + digitVal m2
      let d := digitVal d1 * 10 + digitVal d2
      if 1 ≤ m && m ≤ 12 && 1 ≤ d && d ≤ 31 &&
          (rest.isEmpty || rest.head? == some 'T' || rest.head? == some ' ') then
        some ((y * 10000 + m * 100 + d : Nat) : Int)
      else none
    else none
  | _ => none

/-- `TaskService._is_task_document`: source-specific task-ness predicate.
LINEAR: `metadata.get("type") == "issue" or "issue" in metadata`;
JIRA: `metadata.get("issue_key") is not None or "fields" in metadata`;
SLACK and every other tag: `False`. -/
def isTaskDocument (metadata : Json) (ct : String) : Except PyErr Bool :=
  if ct == "LINEAR" then
    match jDictGet metadata "type" with
    | .error e => .error e
    | .ok tv =>
      if jsonEqStr tv "issue" then .ok true
      else pyInDict "issue" metadata
  else if ct == "JIRA" then
    match jDictGet metadata "issue_key" with
    | .error e => .error e
    | .ok ik =>
      if ik != Json.null then .ok true
      else pyInDict "fields" metadata
  else if ct == "SLACK" then .ok false
  else .ok false

/-- The LINEAR branch of `_extract_priority`: numeric `priority` 0/1/2/3
maps to URGENT/HIGH/MEDIUM/LOW, anything else to `None`. -/
def linearPriorityOf (p : Json) : Option String :=
  if jsonEqInt p 0 then some "URGENT"
  else if jsonEqInt p 1 then some "HIGH"
  else if jsonEqInt p 2 then some "MEDIUM"
  else if jsonEqInt p 3 then some "LOW"
  else none

/-- The JIRA branch of `_extract_priority` after the name has been
upper-cased: substring matching on HIGHEST/BLOCKER/HIGH/MEDIUM/LOW. -/
def jiraPriorityOf (pn : String) : Option String :=
  if strContains pn "HIGHEST" || strContains pn "BLOCKER" then some "URGENT"
  else if strContains pn "HIGH" then some "HIGH"
  else if strContains pn "MEDIUM" then some "MEDIUM"
  else if strContains pn "LOW" then some "LOW"
  else none

/-- `TaskService._extract_priority`: LINEAR reads the numeric `priority`
field; JIRA reads `fields.priority.name`; anything else yields `None`. The
JIRA chain `metadata.get("fields", {}).get("priority", {}).get("name",
"").upper()` raises `AttributeError` when an intermediate value is present
but not a dict (or the name is present but not a string). -/
def extractPriority (metadata : Json) (ct : String) : Except PyErr (Option String) :=
  if ct == "LINEAR" then
    match jDictGet metadata "priority" with
    | .error e => .error e
    | .ok p => .ok (linearPriorityOf p)
  else if ct == "JIRA" then
    match jDictGetD metadata "fields" (Json.obj []) with
    | .error e => .error e
    | .ok fields =>
      match jDictGetD fields "priority" (Json.obj []) with
      | .error e => .error e
      | .ok prio =>
        match jDictGetD prio "name" (Json.str "") with
        | .error e => .error e
        | .ok nameJ =>
          match pyUpperOf nameJ with
          | .error e => .error e
          | .ok pn => .ok (jiraPriorityOf pn)
  else .ok none

/-- The LINEAR parse of `_extract_due_date`: truthiness test, `"Z"` to
`"+00:00"` rewrite, then `fromisoformat` inside `try`/bare-`except` (a
non-string raises inside the `try`, so it degrades to `None` too). -/
def linearDueOf (d : Json) : Option Int :=
  if pyTruthy d then
    match d with
    | .str s => parseIsoDate (strReplace s "Z" "+00:00")
    | _ => none
  else none

/-- The JIRA parse of `_extract_due_date`: the truthiness test and the
`fromisoformat` call inside `try`/bare-`except` (non-strings raise
`TypeError` inside the `try`, so they degrade to `None` too). -/
def jiraDueOf (d : Json) : Option Int :=
  if pyTruthy d then
    match d with
    | .str s => parseIsoDate s
    | _ => none
  else none

/-- `TaskService._extract_due_date`: LINEAR parses `metadata["dueDate"]`;
JIRA parses `metadata.get("fields", {}).get("duedate")`, whose `fields`
access is outside the `try` and raises `AttributeError` when `fields` is
present and not a dict. -/
def extractDueDate (metadata : Json) (ct : String) : Except PyErr (Option Int) :=
  if ct == "LINEAR" then
    match jDictGet metadata "dueDate" with
    | .error e => .error e
    | .ok d => .ok (linearDueOf d)
  else if ct == "JIRA" then
    match jDictGetD metadata "fields" (Json.obj []) with
    | .error e => .error e
    | .ok fields =>
      match jDictGet fields "duedate" with
      | .error e => .error e
      | .ok d => .ok (jiraDueOf d)
  else .ok none

/-- `TaskService._extract_status`: LINEAR reads `state.name`, JIRA reads
`fields.status.name`, both upper-cased with default `"TODO"`; any other
tag yields `"TODO"`. -/
def extractStatus (metadata : Json) (ct : String) : Except PyErr String :=
  if ct == "LINEAR" then
    match jDictGetD metadata "state" (Json.obj []) with
    | .error e => .error e
    | .ok st =>
      match jDictGetD st "name" (Json.str "TODO") with
      | .error e => .error e
      | .ok nameJ => pyUpperOf nameJ
  else if ct == "JIRA" then
    match jDictGetD metadata "fields" (Json.obj []) with
    | .error e => .error e
    | .ok fields =>
      match jDictGetD fields "status" (Json.obj []) with
      | .error e => .error e
      | .ok st =>
        match jDictGetD st "name" (Json.str "TODO") with
        | .error e => .error e
        | .ok nameJ => pyUpperOf nameJ
  else .ok "TODO"

/-- The raw-status to task-status mapping in `sync_tasks_from_connectors`:
`"DONE" if status_raw in ["DONE", "CLOSED", "COMPLETED", "RESOLVED"] else
"UNDONE"`. -/
def mapStatus (raw : String) : String :=
  if ["DONE", "CLOSED", "COMPLETED", "RESOLVED"].contains raw then "DONE" else "UNDONE"

/-- A stored document row, as read by the task sync (`Document` model):
`document_metadata` is the raw JSONB payload (`Json.null` for SQL NULL),
`content` is the nullable text column. -/
structure Doc where
  id : Nat
  search_space_id : Nat
  title : String
  content : Option String
  document_type : String
  document_metadata : Json
  created_at : Int
  deriving DecidableEq, Repr

/-- A stored chat row, as read by the completion auto-linker. -/
structure Chat where
  id : Nat
  search_space_id : Nat
  created_at : Int
  deriving DecidableEq, Repr

/-- A stored task row (`tasks` table / `TaskRow` model). `external_id` holds
the Python value bound by the sync (`None` for manual tasks); timestamps
are abstract instants. -/
structure TaskRow where
  id : Nat
  search_space_id : Nat
  user_id : String
  title : String
  description : Option String
  source_type : Option String
  external_id : Option Json
  external_url : Json
  external_metadata : Option Json
  status : String
  priority : Option String
  due_date : Option Int
  created_at : Int
  updated_at : Int
  completed_at : Option Int
  linked_chat_ids : List Nat
  linked_document_ids : List Nat
  deriving DecidableEq, Repr

/-- The persistent state visible to the service: the three tables plus the
`SERIAL` id counter for tasks. Row order models physical table order,
which is what an unordered `SELECT` returns. -/
structure DB where
  documents : List Doc
  chats : List Chat
  tasks : List TaskRow
  nextTaskId : Nat
  deriving DecidableEq, Repr

/-- The per-document data computed by the body of
`sync_tasks_from_connectors` before the existing-task lookup. -/
structure TaskInfo where
  externalId : Json
  title : String
  description : Option String
  priority : Option String
  dueDate : Option Int
  status : String
  externalUrl : Json
  metadata : Json
  deriving DecidableEq, Repr

/-- `metadata = doc.document_metadata or {}`. -/
def docMetadata (doc : Doc) : Json := pyOr doc.document_metadata (Json.obj [])

/-- `description = doc.content[:500] if doc.content else None`. -/
def descriptionOf (content : Option String) : Option String :=
  match content with
  | some c => if c == "" then none else some (strTake c 500)
  | none => none

/-- The straight-line extraction prefix of the per-document loop body of
`sync_tasks_from_connectors`: task-ness check, then
`external_id = metadata.get("id") or metadata.get("issue_key") or str(doc.id)`,
title, description, priority, due date, raw status and its UNDONE/DONE
mapping, and `metadata.get("url") or metadata.get("link")`. Yields `none`
for non-task documents. The url/link reads are performed in the source
only on the creation path, but whenever `_is_task_document` returned true
the metadata is a dict, so they cannot raise and evaluating them here is
behaviourally equivalent. -/
def extractTaskInfo (ct : String) (doc : Doc) : Except PyErr (Option TaskInfo) :=
  match isTaskDocument (docMetadata doc) ct with
  | .error e => .error e
  | .ok false => .ok none
  | .ok true =>
    match jDictGet (docMetadata doc) "id" with
    | .error e => .error e
    | .ok idv =>
      match jDictGet (docMetadata doc) "issue_key" with
      | .error e => .error e
      | .ok ikv =>
        match extractPriority (docMetadata doc) ct with
        | .error e => .error e
        | .ok priority =>
          match extractDueDate (docMetadata doc) ct with
          | .error e => .error e
          | .ok dueDate =>
            match extractStatus (docMetadata doc) ct with
            | .error e => .error e
            | .ok statusRaw =>
              match jDictGet (docMetadata doc) "url" with
              | .error e => .error e
              | .ok urlv =>
                match jDictGet (docMetadata doc) "link" with
                | .error e => .error e
                | .ok linkv =>
                  .ok (some {
                    externalId := pyOr idv (pyOr ikv (Json.str (toString doc.id))),
                    title := doc.title,
                    description := descriptionOf doc.content,
                    priority := priority, dueDate := dueDate,
                    status := mapStatus statusRaw,
                    externalUrl := pyOr urlv linkv, metadata := docMetadata doc })

/-- The `WHERE` clause of `TaskService._get_task_by_external_id`:
`search_space_id == ssid AND source_type == ct AND external_id == eid`
(a SQL NULL `external_id` or `source_type` never matches). The user id is
not part of the lookup. -/
def keyMatch (ssid : Nat) (ct : String) (eid : Json) (t : TaskRow) : Bool :=
  t.search_space_id == ssid && t.source_type == some ct &&
    (match t.external_id with
     | some e => e == eid
     | none => false)

/-- The update path of `sync_tasks_from_connectors`: overwrite title,
description, priority, due date, status, metadata, `updated_at = now`;
set `completed_at = now` only when the new status is DONE and none was
set. -/
def updateTask (now : Int) (info : TaskInfo) (t : TaskRow) : TaskRow :=
  { t with
    title := info.title, description := info.description,
    priority := info.priority, due_date := info.dueDate,
    status := info.status, external_metadata := some info.metadata,
    updated_at := now,
    completed_at :=
      if info.status == "DONE" && t.completed_at == none then some now
      else t.completed_at }

/-- The creation path of `sync_tasks_from_connectors`. -/
def newTask (tid ssid : Nat) (uid ct : String) (now : Int) (info : TaskInfo) : TaskRow :=
  { id := tid, search_space_id := ssid, user_id := uid, title := info.title,
    description := info.description, source_type := some ct,
    external_id := some info.externalId, external_url := info.externalUrl,
    external_metadata := some info.metadata, status := info.status,
    priority := info.priority, due_date := info.dueDate,
    created_at := now, updated_at := now,
    completed_at := if info.status == "DONE" then some now else none,
    linked_chat_ids := [], linked_document_ids := [] }

/-- Replace the first list element satisfying `p` by its `f`-image: the
model of mutating the single ORM row returned by a lookup. -/
def updateFirst (p : α → Bool) (f : α → α) : List α → List α
  | [] => []
  | x :: xs => if p x then f x :: xs else x :: updateFirst p f xs

/-- Mutable state threaded through one `sync_tasks_from_connectors` call:
the task table, the id counter, and the accumulated `synced_tasks`
snapshots. -/
structure SyncState where
  tasks : List TaskRow
  nextId : Nat
  synced : List TaskRow
  deriving DecidableEq, Repr

/-- The reconciliation step for one extracted task record: look up the
existing task by `(search_space_id, source_type, external_id)` with
`scalar_one_or_none` semantics (0 matches → create, 1 match → update in
place, several → `MultipleResultsFound`), appending the resulting task
snapshot to `synced`. -/
def applyItem (ssid : Nat) (uid : String) (now : Int) (s : SyncState)
    (it : String × TaskInfo) : Except PyErr SyncState :=
  match s.tasks.countP (keyMatch ssid it.1 it.2.externalId) with
  | 0 =>
    let t := newTask s.nextId ssid uid it.1 now it.2
    .ok { tasks := s.tasks ++ [t], nextId := s.nextId + 1, synced := s.synced ++ [t] }
  | 1 =>
    .ok { tasks := updateFirst (keyMatch ssid it.1 it.2.externalId)
            (updateTask now it.2) s.tasks,
          nextId := s.nextId,
          synced := s.synced ++
            ((s.tasks.find? (keyMatch ssid it.1 it.2.externalId)).map
              (updateTask now it.2)).toList }
  | _ + 2 => .error .multipleResults

/-- The whole per-document loop body of `sync_tasks_from_connectors`:
extraction, skip of non-task documents, then reconciliation. -/
def syncStep (ssid : Nat) (uid : String) (now : Int) (s : SyncState)
    (p : String × Doc) : Except PyErr SyncState :=
  match extractTaskInfo p.1 p.2 with
  | .error e => .error e
  | .ok none => .ok s
  | .ok (some info) => applyItem ssid uid now s (p.1, info)

/-- The documents visited by `sync_tasks_from_connectors`, in loop order:
for each connector type in order, the documents of the search space whose
`document_type` is `f"{connector_type}_CONNECTOR"`, in table order. -/
def selectedDocs (db : DB) (ssid : Nat) (cts : List String) : List (String × Doc) :=
  cts.flatMap fun ct =>
    (db.documents.filter fun d =>
      d.search_space_id == ssid && d.document_type == ct ++ "_CONNECTOR").map
      fun d => (ct, d)

/-- Sequential execution of the per-document loop. -/
def runDocs (ssid : Nat) (uid : String) (now : Int) (s : SyncState) :
    List (String × Doc) → Except PyErr SyncState
  | [] => .ok s
  | p :: ps =>
    match syncStep ssid uid now s p with
    | .error e => .error e
    | .ok s' => runDocs ssid uid now s' ps

/-- `TaskService.sync_tasks_from_connectors`: run the loop over all
selected documents and commit, returning the new state and the list of
synced task snapshots. An exception propagates before the commit, so an
error leaves the state unchanged. -/
def sync (db : DB) (now : Int) (ssid : Nat) (uid : String) (cts : List String) :
    Except PyErr (DB × List TaskRow) :=
  match runDocs ssid uid now ⟨db.tasks, db.nextTaskId, []⟩ (selectedDocs db ssid cts) with
  | .error e => .error e
  | .ok s => .ok ({ db with tasks := s.tasks, nextTaskId := s.nextId }, s.synced)

/-- The SQL `CASE` priority rank used by `get_tasks_filtered`:
URGENT→1, HIGH→2, MEDIUM→3, LOW→4, anything else (including NULL)→5. -/
def priorityRank : Option String → Nat
  | some p =>
    if p = "URGENT" then 1
    else if p = "HIGH" then 2
    else if p = "MEDIUM" then 3
    else if p = "LOW" then 4
    else 5
  | none => 5

/-- 0 when the task has a due date, 1 when it is NULL (`nulls_last`). -/
def dueNull (t : TaskRow) : Nat := match t.due_date with | some _ => 0 | none => 1

/-- The due-date value used for comparison (irrelevant when NULL). -/
def dueVal (t : TaskRow) : Int := t.due_date.getD 0

/-- The `ORDER BY` relation of `get_tasks_filtered` when
`sort_by_priority` is true: priority rank ascending, then due date
ascending with NULLs last, then `created_at` ascending. -/
def taskPriorityLe (a b : TaskRow) : Prop :=
  priorityRank a.priority < priorityRank b.priority ∨
    (priorityRank a.priority = priorityRank b.priority ∧
      (dueNull a < dueNull b ∨ (dueNull a = dueNull b ∧
        (dueVal a < dueVal b ∨ (dueVal a = dueVal b ∧ a.created_at ≤ b.created_at)))))

/-- The `ORDER BY` relation of `get_tasks_filtered` when
`sort_by_priority` is false: `created_at` descending. -/
def taskRecentLe (a b : TaskRow) : Prop := b.created_at ≤ a.created_at

instance : DecidableRel taskPriorityLe := fun a b => by
  unfold taskPriorityLe
  infer_instance

instance : DecidableRel taskRecentLe := fun a b => by
  unfold taskRecentLe
  infer_instance

instance : IsTotal TaskRow taskPriorityLe := by
  constructor
  intro a b
  unfold taskPriorityLe
  omega

instance : IsTrans TaskRow taskPriorityLe := by
  constructor
  intro a b c hab hbc
  unfold taskPriorityLe at *
  omega

instance : IsTotal TaskRow taskRecentLe := by
  constructor
  intro a b
  unfold taskRecentLe
  omega

instance : IsTrans TaskRow taskRecentLe := by
  constructor
  intro a b c hab hbc
  unfold taskRecentLe at *
  omega

/-- The `WHERE` clause of `get_tasks_filtered`: search space, owner, and
the status condition, which is only added when `filter_req.status` is
truthy (a `None` or empty-string status means no status filter). -/
def taskFilterCond (ssid : Nat) (uid : String) (status? : Option String) (t : TaskRow) : Bool :=
  t.search_space_id == ssid && t.user_id == uid &&
    (match status? with
     | some s => if s == "" then true else t.status == s
     | none => true)

/-- `TaskService.get_tasks_filtered`: filter, then order by the requested
sort. The database returns some ordering satisfying the sort keys; a
stable sort is the deterministic refinement used here. -/
def getTasksFiltered (db : DB) (ssid : Nat) (uid : String) (status? : Option String)
    (sortByPriority : Bool) : List TaskRow :=
  let fil := db.tasks.filter (taskFilterCond ssid uid status?)
  if sortByPriority then List.insertionSort taskPriorityLe fil
  else List.insertionSort taskRecentLe fil

/-- The chat ids auto-linked by `complete_task`: chats of the task's
search space with `created_at >= now - 2 hours`, `LIMIT 5`. The `SELECT`
has no `ORDER BY`, so the five are taken in table order. -/
def windowChatIds (db : DB) (ssid : Nat) (now : Int) : List Nat :=
  ((db.chats.filter fun c =>
    c.search_space_id == ssid && decide (now - 7200 ≤ c.created_at)).map Chat.id).take 5

/-- The document ids auto-linked by `complete_task`, same shape as the
chat query. -/
def windowDocIds (db : DB) (ssid : Nat) (now : Int) : List Nat :=
  ((db.documents.filter fun d =>
    d.search_space_id == ssid && decide (now - 7200 ≤ d.created_at)).map Doc.id).take 5

/-- The rows matched by `complete_task`'s lookup
`(TaskRow.id == task_id) AND (TaskRow.user_id == user_id)`, in table order. -/
def completeFind (db : DB) (tid : Nat) (uid : String) : List TaskRow :=
  db.tasks.filter fun t => t.id == tid && t.user_id == uid

/-- The row state written by `complete_task`: status DONE, `completed_at`
and `updated_at` overwritten with now, and both linked-id lists replaced
by the window query results. -/
def completeUpdated (db : DB) (now : Int) (t : TaskRow) : TaskRow :=
  { t with
    status := "DONE", completed_at := some now, updated_at := now,
    linked_chat_ids := windowChatIds db t.search_space_id now,
    linked_document_ids := windowDocIds db t.search_space_id now }

/-- `TaskService.complete_task`: `scalar_one` the lookup (`NoResultFound`
on no match), apply `completeUpdated` to the single matched row in place,
and commit. -/
def completeTask (db : DB) (now : Int) (tid : Nat) (uid : String) :
    Except PyErr (DB × TaskRow) :=
  match completeFind db tid uid with
  | [] => .error .noResult
  | [t] =>
    .ok ({ db with
            tasks := updateFirst (fun u => u.id == tid && u.user_id == uid)
              (fun _ => completeUpdated db now t) db.tasks },
          completeUpdated db now t)
  | _ :: _ :: _ => .error .multipleResults

/-- The `/tasks/complete` route handler (`tasks_routes.py`): any exception
from the service, including the missing-task `NoResultFound`, is caught
and surfaced as HTTP 500; success returns 200 with the task. -/
def completeTaskRoute (db : DB) (now : Int) (tid : Nat) (uid : String) :
    Nat × Option TaskRow :=
  match completeTask db now tid uid with
  | .ok (_, t) => (200, some t)
  | .error _ => (500, none)

/-- The payload of `POST /tasks/create` (`TaskCreate` schema). -/
structure TaskCreate where
  search_space_id : Nat
  title : String
  description : Option String
  priority : Option String
  due_date : Option Int
  deriving DecidableEq, Repr

/-- `TaskService.create_manual_task`: a new task with
`source_type = "MANUAL"`, status UNDONE, no external fields, no
completion timestamp. -/
def createManualTask (db : DB) (now : Int) (td : TaskCreate) (uid : String) : DB × TaskRow :=
  let t : TaskRow := {
    id := db.nextTaskId, search_space_id := td.search_space_id,
    user_id := uid, title := td.title, description := td.description,
    source_type := some "MANUAL", external_id := none, external_url := Json.null,
    external_metadata := none, status := "UNDONE", priority := td.priority,
    due_date := td.due_date, created_at := now, updated_at := now,
    completed_at := none, linked_chat_ids := [], linked_document_ids := [] }
  ({ db with tasks := db.tasks ++ [t], nextTaskId := db.nextTaskId + 1 }, t)

/-- States reachable by this core: from the empty database, any
interleaving of environment writes to the document/chat tables (owned by
other subsystems), successful syncs, successful completions, and manual
creations. `get_tasks_filtered` reads but never writes, so it needs no
transition; a failed operation raises before commit and leaves the state
unchanged. -/
inductive Reachable : DB → Prop where
  | init : Reachable ⟨[], [], [], 1⟩
  | env (db : DB) (ds : List Doc) (cs : List Chat) :
      Reachable db → Reachable { db with documents := ds, chats := cs }
  | runSync (db db' : DB) (now : Int) (ssid : Nat) (uid : String)
      (cts : List String) (l : List TaskRow) :
      Reachable db → sync db now ssid uid cts = .ok (db', l) → Reachable db'
  | runComplete (db db' : DB) (now : Int) (tid : Nat) (uid : String) (t : TaskRow) :
      Reachable db → completeTask db now tid uid = .ok (db', t) → Reachable db'
  | runManual (db : DB) (now : Int) (td : TaskCreate) (uid : String) :
      Reachable db → Reachable (createManualTask db now td uid).1

/-- A default task value, used only to totalize accessors on the error
branch they never reach in witnesses. -/
def defaultTask : TaskRow :=
  { id := 0, search_space_id := 0, user_id := "", title := "", description := none,
    source_type := none, external_id := none, external_url := Json.null,
    external_metadata := none, status := "", priority := none, due_date := none,
    created_at := 0, updated_at := 0, completed_at := none,
    linked_chat_ids := [], linked_document_ids := [] }

/-- The empty database. -/
def emptyDB : DB := ⟨[], [], [], 1⟩

/-- State component of a successful sync result. -/
def okSyncDB : Except PyErr (DB × List TaskRow) → DB
  | .ok (d, _) => d
  | .error _ => emptyDB

/-- Returned-list component of a successful sync result. -/
def okSyncList : Except PyErr (DB × List TaskRow) → List TaskRow
  | .ok (_, l) => l
  | .error _ => []

/-- Task component of a successful completion result. -/
def okCompleteTask : Except PyErr (DB × TaskRow) → TaskRow
  | .ok (_, t) => t
  | .error _ => defaultTask

/-- State component of a successful completion result. -/
def okCompleteDB : Except PyErr (DB × TaskRow) → DB
  | .ok (d, _) => d
  | .error _ => emptyDB

/-- C3: the raw status extracted by the extractor (which upper-cases it)
maps to task status DONE exactly when it is one of DONE, CLOSED,
COMPLETED, RESOLVED, and to UNDONE for every other raw value; in
particular RESOLVED maps to DONE and IN_PROGRESS maps to UNDONE. -/
theorem C3_status_mapping :
    (∀ raw, mapStatus raw = "DONE" ↔
      (raw = "DONE" ∨ raw = "CLOSED" ∨ raw = "COMPLETED" ∨ raw = "RESOLVED")) ∧
    (∀ raw, mapStatus raw = "DONE" ∨ mapStatus raw = "UNDONE") ∧
    mapStatus "RESOLVED" = "DONE" ∧ mapStatus "IN_PROGRESS" = "UNDONE" := by
  refine ⟨fun raw => ?_, fun raw => ?_, by decide, by decide⟩
  · unfold mapStatus
    split
    · rename_i h
      simp only [List.contains, List.elem_eq_mem, decide_eq_true_eq, List.mem_cons,
        List.mem_singleton, List.not_mem_nil, or_false] at h
      simp [h]
    · rename_i h
      simp only [List.contains, List.elem_eq_mem, decide_eq_true_eq, List.mem_cons,
        List.mem_singleton, List.not_mem_nil, or_false] at h
      constructor
      · intro heq
        exact absurd heq (by decide)
      · intro hmem
        exact absurd hmem h
  · unfold mapStatus
    split
    · exact Or.inl rfl
    · exact Or.inr rfl

/-- C3 witness: evaluating the mapping at the named raw statuses. -/
theorem C3_witness :
    (mapStatus "RESOLVED" = "DONE" ↔
      ("RESOLVED" = "DONE" ∨ "RESOLVED" = "CLOSED" ∨ "RESOLVED" = "COMPLETED" ∨
        "RESOLVED" = "RESOLVED")) ∧
    (mapStatus "IN_PROGRESS" = "DONE" ∨ mapStatus "IN_PROGRESS" = "UNDONE") :=
  ⟨C3_status_mapping.1 "RESOLVED", C3_status_mapping.2.1 "IN_PROGRESS"⟩

/-- C9 counterexample: with source JIRA and a metadata mapping whose
`fields` entry is a number instead of a mapping, both `_extract_priority`
and `_extract_due_date` raise `AttributeError` (the nested `.get` chain is
outside any `try`), contradicting the claim that they never raise. -/
theorem C9_counterexample :
    extractPriority (Json.obj [("fields", Json.num 5)]) "JIRA" =
      .error PyErr.attributeError ∧
    extractDueDate (Json.obj [("fields", Json.num 5)]) "JIRA" =
      .error PyErr.attributeError :=
  ⟨rfl, rfl⟩

/-- C9 amended: for LINEAR metadata mappings the two extractors are total
(any shape, including unexpected nested values, yields a value rather than
an exception); for JIRA they are total provided the accessed nested
containers have the expected types (`fields` a mapping when present, and
for priority also `fields.priority` a mapping and its `name` a string when
present); for every other source tag they return absent; and unmapped
priority representations and malformed due-date strings degrade to absent
rather than raising. -/
theorem C9_extract_amended :
    (∀ kvs, ∃ p, extractPriority (Json.obj kvs) "LINEAR" = .ok p) ∧
    (∀ kvs, ∃ d, extractDueDate (Json.obj kvs) "LINEAR" = .ok d) ∧
    (∀ kvs fl, (kvs.lookup "fields").getD (Json.obj []) = Json.obj fl →
      ∃ d, extractDueDate (Json.obj kvs) "JIRA" = .ok d) ∧
    (∀ kvs fl pl nm, (kvs.lookup "fields").getD (Json.obj []) = Json.obj fl →
      (fl.lookup "priority").getD (Json.obj []) = Json.obj pl →
      (pl.lookup "name").getD (Json.str "") = Json.str nm →
      ∃ p, extractPriority (Json.obj kvs) "JIRA" = .ok p) ∧
    (∀ md ct, ct ≠ "LINEAR" → ct ≠ "JIRA" →
      extractPriority md ct = .ok none ∧ extractDueDate md ct = .ok none) ∧
    (∀ kvs j, kvs.lookup "priority" = some j →
      jsonEqInt j 0 = false → jsonEqInt j 1 = false → jsonEqInt j 2 = false →
      jsonEqInt j 3 = false → extractPriority (Json.obj kvs) "LINEAR" = .ok none) ∧
    (∀ kvs s, kvs.lookup "dueDate" = some (Json.str s) → s ≠ "" →
      parseIsoDate (strReplace s "Z" "+00:00") = none →
      extractDueDate (Json.obj kvs) "LINEAR" = .ok none) := by
  refine ⟨fun kvs => ⟨_, rfl⟩, fun kvs => ⟨_, rfl⟩, fun kvs fl hfl => ?_,
    fun kvs fl pl nm hfl hpl hnm => ?_, fun md ct h1 h2 => ?_,
    fun kvs j hj h0 hh1 hh2 hh3 => ?_, fun kvs s hs hne hparse => ?_⟩
  · refine ⟨jiraDueOf ((fl.lookup "duedate").getD Json.null), ?_⟩
    have e1 : jDictGetD (Json.obj kvs) "fields" (Json.obj []) = .ok (Json.obj fl) := by
      rw [show jDictGetD (Json.obj kvs) "fields" (Json.obj []) =
        .ok ((kvs.lookup "fields").getD (Json.obj [])) from rfl, hfl]
    unfold extractDueDate
    rw [if_neg (by decide), if_pos (show (("JIRA" : String) == "JIRA") = true from rfl)]
    rw [e1]
    rfl
  · refine ⟨jiraPriorityOf (pyUpperStr nm), ?_⟩
    have e1 : jDictGetD (Json.obj kvs) "fields" (Json.obj []) = .ok (Json.obj fl) := by
      rw [show jDictGetD (Json.obj kvs) "fields" (Json.obj []) =
        .ok ((kvs.lookup "fields").getD (Json.obj [])) from rfl, hfl]
    have e2 : jDictGetD (Json.obj fl) "priority" (Json.obj []) = .ok (Json.obj pl) := by
      rw [show jDictGetD (Json.obj fl) "priority" (Json.obj []) =
        .ok ((fl.lookup "priority").getD (Json.obj [])) from rfl, hpl]
    have e3 : jDictGetD (Json.obj pl) "name" (Json.str "") = .ok (Json.str nm) := by
      rw [show jDictGetD (Json.obj pl) "name" (Json.str "") =
        .ok ((pl.lookup "name").getD (Json.str "")) from rfl, hnm]
    unfold extractPriority
    rw [if_neg (by decide), if_pos (show (("JIRA" : String) == "JIRA") = true from rfl)]
    simp only [e1, e2, e3]
    rfl
  · constructor
    · unfold extractPriority
      rw [if_neg (by simp [h1]), if_neg (by simp [h2])]
    · unfold extractDueDate
      rw [if_neg (by simp [h1]), if_neg (by simp [h2])]
  · have hstep : extractPriority (Json.obj kvs) "LINEAR" = .ok (linearPriorityOf j) := by
      unfold extractPriority
      rw [show jDictGet (Json.obj kvs) "priority" =
        .ok ((kvs.lookup "priority").getD Json.null) from rfl, hj]
      rfl
    rw [hstep]
    unfold linearPriorityOf
    rw [if_neg (by simp [h0]), if_neg (by simp [hh1]), if_neg (by simp [hh2]),
      if_neg (by simp [hh3])]
  · have hstep : extractDueDate (Json.obj kvs) "LINEAR" = .ok (linearDueOf (Json.str s)) := by
      unfold extractDueDate
      rw [show jDictGet (Json.obj kvs) "dueDate" =
        .ok ((kvs.lookup "dueDate").getD Json.null) from rfl, hs]
      rfl
    rw [hstep]
    unfold linearDueOf
    rw [if_pos (by simp [pyTruthy, hne])]
    exact congrArg Except.ok hparse

/-- C9 witness: concrete degradations to absent, and a concrete total JIRA
extraction under the shape conditions. -/
theorem C9_witness :
    extractPriority (Json.obj [("priority", Json.num 7)]) "LINEAR" = .ok none ∧
    (∃ p, extractPriority
      (Json.obj [("fields", Json.obj [("priority", Json.obj [("name", Json.str "Highest")])])])
      "JIRA" = .ok p) ∧
    extractPriority (Json.obj []) "SLACK" = .ok none := by
  refine ⟨?_, ?_, ?_⟩
  · exact C9_extract_amended.2.2.2.2.2.1 [("priority", Json.num 7)] (Json.num 7)
      rfl rfl rfl rfl rfl
  · exact C9_extract_amended.2.2.2.1 _ _ _ "Highest" rfl rfl rfl
  · exact (C9_extract_amended.2.2.2.2.1 (Json.obj []) "SLACK" (by decide) (by decide)).1

/-- C7 amended: when no stored task has the requested id and owning user,
`complete_task` fails with the service-level `NoResultFound`, but the
`/tasks/complete` route catches every exception and surfaces HTTP 500 (not
a 404-equivalent); when exactly one such task exists the operation
succeeds and the route returns 200 with the task. -/
theorem C7_complete_not_found_amended (db : DB) (now : Int) (tid : Nat) (uid : String) :
    ((∀ t ∈ db.tasks, ¬(t.id = tid ∧ t.user_id = uid)) →
      completeTask db now tid uid = .error PyErr.noResult ∧
      completeTaskRoute db now tid uid = (500, none)) ∧
    (∀ t0, completeFind db tid uid = [t0] →
      ∃ db' t', completeTask db now tid uid = .ok (db', t') ∧
        completeTaskRoute db now tid uid = (200, some t')) := by
  constructor
  · intro h
    have hnil : completeFind db tid uid = [] := by
      unfold completeFind
      rw [List.filter_eq_nil_iff]
      intro a ha
      simpa using h a ha
    have hc : completeTask db now tid uid = .error PyErr.noResult := by
      unfold completeTask
      rw [hnil]
    refine ⟨hc, ?_⟩
    unfold completeTaskRoute
    rw [hc]
  · intro t0 h0
    have hc : completeTask db now tid uid = .ok
        ({ db with
           tasks := updateFirst (fun u => u.id == tid && u.user_id == uid)
             (fun _ => completeUpdated db now t0) db.tasks }, completeUpdated db now t0) := by
      unfold completeTask
      rw [h0]
    refine ⟨_, _, hc, ?_⟩
    unfold completeTaskRoute
    rw [hc]

/-- C7 counterexample: completing a missing task does raise the service
NotFound error, but the route surfaces it as HTTP 500, not as the
404-equivalent the claim states. -/
theorem C7_counterexample :
    completeTask emptyDB 0 1 "u" = .error PyErr.noResult ∧
    completeTaskRoute emptyDB 0 1 "u" = (500, none) ∧
    (completeTaskRoute emptyDB 0 1 "u").1 ≠ 404 :=
  ⟨rfl, rfl, by decide⟩

/-- C7 witness: a database with the task present, on which completion
succeeds with HTTP 200, and the not-found branch on the empty database. -/
theorem C7_witness :
    (completeTask emptyDB 3 9 "bob" = .error PyErr.noResult ∧
      completeTaskRoute emptyDB 3 9 "bob" = (500, none)) ∧
    (∃ db' t', completeTask ⟨[], [], [{ defaultTask with id := 9, user_id := "bob" }], 10⟩
        3 9 "bob" = .ok (db', t') ∧
      completeTaskRoute ⟨[], [], [{ defaultTask with id := 9, user_id := "bob" }], 10⟩
        3 9 "bob" = (200, some t')) := by
  constructor
  · exact (C7_complete_not_found_amended emptyDB 3 9 "bob").1 (by decide)
  · exact (C7_complete_not_found_amended
      ⟨[], [], [{ defaultTask with id := 9, user_id := "bob" }], 10⟩ 3 9 "bob").2
      { defaultTask with id := 9, user_id := "bob" } rfl

/-- C5: whenever `complete_task` succeeds, the returned task has status
DONE and both `completed_at` and `updated_at` unconditionally overwritten
with now, even when the task was already DONE with an earlier
`completed_at`; the stored row is overwritten the same way. -/
theorem C5_complete_overwrites (db : DB) (now : Int) (tid : Nat) (uid : String)
    (db' : DB) (t : TaskRow)
    (h : completeTask db now tid uid = .ok (db', t)) :
    t.status = "DONE" ∧ t.completed_at = some now ∧ t.updated_at = now ∧
    (∀ t0 c0, completeFind db tid uid = [t0] → t0.completed_at = some c0 →
      c0 ≠ now → t.completed_at ≠ t0.completed_at) ∧
    db'.tasks = updateFirst (fun u => u.id == tid && u.user_id == uid)
      (fun _ => t) db.tasks := by
  unfold completeTask at h
  rcases hf : completeFind db tid uid with _ | ⟨t0, _ | ⟨t1, rest⟩⟩
  · rw [hf] at h
    exact absurd h (by simp)
  · rw [hf] at h
    have h' : (Except.ok
        ({ db with
           tasks := updateFirst (fun u => u.id == tid && u.user_id == uid)
             (fun _ => completeUpdated db now t0) db.tasks }, completeUpdated db now t0) :
        Except PyErr (DB × TaskRow)) =
        Except.ok (db', t) := h
    injection h' with hpair
    injection hpair with hdb ht
    subst hdb
    subst ht
    refine ⟨rfl, rfl, rfl, ?_, rfl⟩
    intro t0' c0 hfind hc0 hcne
    injection hfind with h1 h2
    subst h1
    simp only [completeUpdated]
    rw [hc0]
    intro hx
    exact hcne (Option.some.inj hx).symm
  · rw [hf] at h
    exact absurd h (by simp)

/-- A task already DONE with an earlier completion timestamp, for the C5
witness. -/
def doneEarlierTask : TaskRow :=
  { defaultTask with id := 4, user_id := "u", status := "DONE", completed_at := some 100 }

/-- C5 witness: completing an already-DONE task (completed at 100)
at time 500 refreshes the timestamp to 500. -/
theorem C5_witness :
    (okCompleteTask (completeTask ⟨[], [], [doneEarlierTask], 5⟩ 500 4 "u")).status = "DONE" ∧
    (okCompleteTask (completeTask ⟨[], [], [doneEarlierTask], 5⟩ 500 4 "u")).completed_at =
      some 500 := by
  have h := C5_complete_overwrites ⟨[], [], [doneEarlierTask], 5⟩ 500 4 "u"
    (okCompleteDB (completeTask ⟨[], [], [doneEarlierTask], 5⟩ 500 4 "u"))
    (okCompleteTask (completeTask ⟨[], [], [doneEarlierTask], 5⟩ 500 4 "u"))
    rfl
  exact ⟨h.1, h.2.1⟩

/-- C6 amended: on every successful completion both linked-id lists are
replaced (not appended to) with the window query results: at most 5 ids,
each belonging to a chat (resp. document) of the completed task's search
space created at most 2 hours before now, taken in table order rather
than by recency; when at most 5 chats match the window every matching
chat id is linked, and a chat beyond the 2-hour window is never linked. -/
theorem C6_autolink_amended (db : DB) (now : Int) (tid : Nat) (uid : String)
    (db' : DB) (t : TaskRow)
    (h : completeTask db now tid uid = .ok (db', t)) :
    t.linked_chat_ids = windowChatIds db t.search_space_id now ∧
    t.linked_document_ids = windowDocIds db t.search_space_id now ∧
    t.linked_chat_ids.length ≤ 5 ∧
    t.linked_document_ids.length ≤ 5 ∧
    (∀ cid ∈ t.linked_chat_ids, ∃ c ∈ db.chats, c.id = cid ∧
      c.search_space_id = t.search_space_id ∧ now - 7200 ≤ c.created_at) ∧
    (∀ did ∈ t.linked_document_ids, ∃ d ∈ db.documents, d.id = did ∧
      d.search_space_id = t.search_space_id ∧ now - 7200 ≤ d.created_at) ∧
    ((db.chats.filter fun c => c.search_space_id == t.search_space_id &&
        decide (now - 7200 ≤ c.created_at)).length ≤ 5 →
      ∀ c ∈ db.chats, c.search_space_id = t.search_space_id →
        now - 7200 ≤ c.created_at → c.id ∈ t.linked_chat_ids) ∧
    (∀ c ∈ db.chats, c.search_space_id = t.search_space_id →
      c.created_at < now - 7200 →
      (∀ c' ∈ db.chats, c'.id = c.id → c' = c) → c.id ∉ t.linked_chat_ids) := by
  unfold completeTask at h
  rcases hf : completeFind db tid uid with _ | ⟨t0, _ | ⟨t1, rest⟩⟩
  · rw [hf] at h
    exact absurd h (by simp)
  · rw [hf] at h
    have h' : (Except.ok
        ({ db with
           tasks := updateFirst (fun u => u.id == tid && u.user_id == uid)
             (fun _ => completeUpdated db now t0) db.tasks }, completeUpdated db now t0) :
        Except PyErr (DB × TaskRow)) =
        Except.ok (db', t) := h
    injection h' with hpair
    injection hpair with hdb ht
    subst hdb
    subst ht
    have hss : (completeUpdated db now t0).search_space_id = t0.search_space_id := rfl
    refine ⟨rfl, rfl, List.length_take_le 5 _, List.length_take_le 5 _, ?_, ?_, ?_, ?_⟩
    · intro cid hcid
      have hmem := List.mem_of_mem_take hcid
      obtain ⟨c, hc, hcm⟩ := List.mem_map.mp hmem
      obtain ⟨hcl, hcond⟩ := List.mem_filter.mp hc
      refine ⟨c, hcl, hcm, ?_, ?_⟩
      · have := (Bool.and_eq_true _ _).mp hcond
        exact hss ▸ (beq_iff_eq.mp this.1)
      · have := (Bool.and_eq_true _ _).mp hcond
        exact of_decide_eq_true this.2
    · intro did hdid
      have hmem := List.mem_of_mem_take hdid
      obtain ⟨d, hd, hdm⟩ := List.mem_map.mp hmem
      obtain ⟨hdl, hcond⟩ := List.mem_filter.mp hd
      refine ⟨d, hdl, hdm, ?_, ?_⟩
      · have := (Bool.and_eq_true _ _).mp hcond
        exact hss ▸ (beq_iff_eq.mp this.1)
      · have := (Bool.and_eq_true _ _).mp hcond
        exact of_decide_eq_true this.2
    · intro hlen c hcl hcss hcwin
      have hcf : c ∈ db.chats.filter fun c => c.search_space_id ==
          (completeUpdated db now t0).search_space_id && decide (now - 7200 ≤ c.created_at) := by
        refine List.mem_filter.mpr ⟨hcl, ?_⟩
        rw [Bool.and_eq_true]
        exact ⟨beq_iff_eq.mpr hcss, decide_eq_true hcwin⟩
      show c.id ∈ windowChatIds db (completeUpdated db now t0).search_space_id now
      unfold windowChatIds
      rw [List.take_of_length_le (by simpa using hlen)]
      exact List.mem_map.mpr ⟨c, hcf, rfl⟩
    · intro c hcl hcss hcold huniq hcin
      have hmem := List.mem_of_mem_take hcin
      obtain ⟨c', hc', hcm⟩ := List.mem_map.mp hmem
      obtain ⟨hcl', hcond⟩ := List.mem_filter.mp hc'
      have hwin : now - 7200 ≤ c'.created_at :=
        of_decide_eq_true ((Bool.and_eq_true _ _).mp hcond).2
      have : c' = c := huniq c' hcl' hcm
      subst this
      omega
  · rw [hf] at h
    exact absurd h (by simp)

/-- A database with six chats in the task's search space, all created
within the 2-hour window before time 10000, in ascending creation order. -/
def sixChatDB : DB :=
  { documents := [],
    chats := [⟨1, 1, 9001⟩, ⟨2, 1, 9002⟩, ⟨3, 1, 9003⟩, ⟨4, 1, 9004⟩,
      ⟨5, 1, 9005⟩, ⟨6, 1, 9006⟩],
    tasks := [{ defaultTask with id := 1, user_id := "u", search_space_id := 1 }],
    nextTaskId := 2 }

/-- C6 counterexample: with six window chats, completion links the first
five in table order ([1..5]); chat 6 is the most recently created chat of
the window yet is not linked, so the linked set is not "the 5
most-recently-created" chats. -/
theorem C6_counterexample :
    (completeTaskRoute sixChatDB 10000 1 "u").1 = 200 ∧
    (okCompleteTask (completeTask sixChatDB 10000 1 "u")).linked_chat_ids = [1, 2, 3, 4, 5] ∧
    6 ∉ (okCompleteTask (completeTask sixChatDB 10000 1 "u")).linked_chat_ids ∧
    sixChatDB.chats.map Chat.id = [1, 2, 3, 4, 5, 6] ∧
    sixChatDB.chats.map Chat.created_at = [9001, 9002, 9003, 9004, 9005, 9006] ∧
    sixChatDB.chats.map Chat.search_space_id = [1, 1, 1, 1, 1, 1] ∧
    (okCompleteTask (completeTask sixChatDB 10000 1 "u")).search_space_id = 1 ∧
    10000 - 7200 ≤ (9001 : Int) :=
  ⟨rfl, rfl, by decide, rfl, rfl, rfl, rfl, by decide⟩

/-- C6 witness for the amended claim, evaluated on the six-chat database. -/
theorem C6_witness :
    (okCompleteTask (completeTask sixChatDB 10000 1 "u")).linked_chat_ids =
      windowChatIds sixChatDB
        (okCompleteTask (completeTask sixChatDB 10000 1 "u")).search_space_id 10000 ∧
    (okCompleteTask (completeTask sixChatDB 10000 1 "u")).linked_chat_ids.length ≤ 5 := by
  have h := C6_autolink_amended sixChatDB 10000 1 "u"
    (okCompleteDB (completeTask sixChatDB 10000 1 "u"))
    (okCompleteTask (completeTask sixChatDB 10000 1 "u")) rfl
  exact ⟨h.1, h.2.2.1⟩

/-- C2: `get_tasks_filtered` returns exactly the tasks matching the
(search space, user, optional status) filter; with `sort_by_priority`
true they are ordered by priority rank ascending (URGENT=1, HIGH=2,
MEDIUM=3, LOW=4, absent or unknown=5), then due date ascending with NULLs
last, then `created_at` ascending; with it false they are ordered by
`created_at` descending. -/
theorem C2_filter_sort (db : DB) (ssid : Nat) (uid : String) (status? : Option String) :
    List.Perm (getTasksFiltered db ssid uid status? true)
      (db.tasks.filter (taskFilterCond ssid uid status?)) ∧
    List.Sorted taskPriorityLe (getTasksFiltered db ssid uid status? true) ∧
    List.Perm (getTasksFiltered db ssid uid status? false)
      (db.tasks.filter (taskFilterCond ssid uid status?)) ∧
    List.Sorted taskRecentLe (getTasksFiltered db ssid uid status? false) ∧
    priorityRank (some "URGENT") = 1 ∧ priorityRank (some "HIGH") = 2 ∧
    priorityRank (some "MEDIUM") = 3 ∧ priorityRank (some "LOW") = 4 ∧
    priorityRank none = 5 := by
  refine ⟨?_, ?_, ?_, ?_, rfl, rfl, rfl, rfl, rfl⟩
  · exact List.perm_insertionSort taskPriorityLe _
  · exact List.sorted_insertionSort taskPriorityLe _
  · exact List.perm_insertionSort taskRecentLe _
  · exact List.sorted_insertionSort taskRecentLe _

/-- `updateFirst` preserves the length. -/
theorem updateFirst_length (p : α → Bool) (f : α → α) :
    ∀ l : List α, (updateFirst p f l).length = l.length
  | [] => rfl
  | x :: xs => by
    unfold updateFirst
    split
    · simp
    · simp [updateFirst_length p f xs]

/-- When the first element satisfying `p` sits at index `j`, `updateFirst`
is the positional update at `j`. -/
theorem updateFirst_eq_set (p : α → Bool) (f : α → α) :
    ∀ (l : List α) (j : Nat) (x : α), l[j]? = some x → p x = true →
      (∀ i y, i < j → l[i]? = some y → p y = false) →
      updateFirst p f l = l.set j (f x)
  | [], j, x, hj, _, _ => by simp at hj
  | z :: zs, 0, x, hj, hx, _ => by
    have hz : z = x := by simpa using hj
    subst hz
    unfold updateFirst
    rw [if_pos hx]
    rfl
  | z :: zs, j + 1, x, hj, hx, hfirst => by
    have hz : p z = false := hfirst 0 z (Nat.succ_pos j) (by simp)
    unfold updateFirst
    rw [if_neg (by simp [hz])]
    have := updateFirst_eq_set p f zs j x (by simpa using hj) hx
      (fun i y hi hy => hfirst (i + 1) y (Nat.succ_lt_succ hi) (by simpa using hy))
    rw [this]
    rfl

/-- When the first element satisfying `p` sits at index `j`, `find?`
returns it. -/
theorem find?_eq_of_first (p : α → Bool) :
    ∀ (l : List α) (j : Nat) (x : α), l[j]? = some x → p x = true →
      (∀ i y, i < j → l[i]? = some y → p y = false) →
      l.find? p = some x
  | [], j, x, hj, _, _ => by simp at hj
  | z :: zs, 0, x, hj, hx, _ => by
    have hz : z = x := by simpa using hj
    subst hz
    simp [List.find?_cons, hx]
  | z :: zs, j + 1, x, hj, hx, hfirst => by
    have hz : p z = false := hfirst 0 z (Nat.succ_pos j) (by simp)
    rw [List.find?_cons, hz]
    exact find?_eq_of_first p zs j x (by simpa using hj) hx
      (fun i y hi hy => hfirst (i + 1) y (Nat.succ_lt_succ hi) (by simpa using hy))

/-- A `countP` of exactly one yields the unique matching index. -/
theorem countP_eq_one_spec {p : α → Bool} :
    ∀ {l : List α}, l.countP p = 1 →
      ∃ (j : Nat) (x : α), l[j]? = some x ∧ p x = true ∧
        (∀ (i : Nat) (y : α), i < j → l[i]? = some y → p y = false) ∧
        (∀ (i : Nat) (y : α), l[i]? = some y → p y = true → i = j) := by
  intro l
  induction l with
  | nil => intro h; simp [List.countP_nil] at h
  | cons z zs ih =>
    intro h
    rw [List.countP_cons] at h
    by_cases hz : p z = true
    · rw [if_pos hz] at h
      have hzs : zs.countP p = 0 := by omega
      refine ⟨0, z, by simp, hz, by omega, ?_⟩
      intro i y hy hpy
      match i with
      | 0 => rfl
      | i + 1 =>
        exfalso
        have hymem : y ∈ zs := List.getElem?_mem (by simpa using hy)
        exact absurd hpy (by simpa using List.countP_eq_zero.mp hzs y hymem)
    · rw [if_neg hz] at h
      simp only [Nat.add_zero] at h
      obtain ⟨j, x, hj, hx, hfirst, huniq⟩ := ih h
      refine ⟨j + 1, x, by simpa using hj, hx, ?_, ?_⟩
      · intro i y hi hy
        match i with
        | 0 =>
          have hyz : y = z := by
            have := hy
            simp at this
            exact this.symm
          subst hyz
          simpa using hz
        | i + 1 =>
          exact hfirst i y (by omega) (by simpa using hy)
      · intro i y hy hpy
        match i with
        | 0 =>
          have hyz : y = z := by
            have := hy
            simp at this
            exact this.symm
          subst hyz
          exact absurd hpy (by simpa using hz)
        | i + 1 =>
          have := huniq i y (by simpa using hy) hpy
          omega

/-- Pointwise-equal predicates on pointwise-related lists count equally. -/
theorem countP_congr_idx {p q : α → Bool} :
    ∀ {l₁ l₂ : List α}, l₁.length = l₂.length →
      (∀ (i : Nat) (x y : α), l₁[i]? = some x → l₂[i]? = some y → p x = q y) →
      l₁.countP p = l₂.countP q
  | [], [], _, _ => rfl
  | [], _ :: _, hlen, _ => by simp at hlen
  | _ :: _, [], hlen, _ => by simp at hlen
  | x :: xs, y :: ys, hlen, h => by
    rw [List.countP_cons, List.countP_cons]
    have hxy : p x = q y := h 0 x y (by simp) (by simp)
    have hxys : xs.countP p = ys.countP q := countP_congr_idx (by simpa using hlen)
      (fun i a b ha hb => h (i + 1) a b (by simpa using ha) (by simpa using hb))
    rw [hxys, hxy]

/-- Build `Forall₂` from a pointwise index relation. -/
theorem forall₂_of_idx {R : α → β → Prop} :
    ∀ {l₁ : List α} {l₂ : List β}, l₁.length = l₂.length →
      (∀ (i : Nat) (x : α) (y : β), l₁[i]? = some x → l₂[i]? = some y → R x y) →
      List.Forall₂ R l₁ l₂
  | [], [], _, _ => List.Forall₂.nil
  | [], _ :: _, hlen, _ => by simp at hlen
  | _ :: _, [], hlen, _ => by simp at hlen
  | x :: xs, y :: ys, hlen, h =>
    List.Forall₂.cons (h 0 x y (by simp) (by simp))
      (forall₂_of_idx (by simpa using hlen)
        (fun i a b ha hb => h (i + 1) a b (by simpa using ha) (by simpa using hb)))

/-- The reconciliation key of a task row: the fields `_get_task_by_external_id`
matches on. -/
def taskKey (t : TaskRow) : Nat × Option String × Option Json :=
  (t.search_space_id, t.source_type, t.external_id)

/-- The fields of a task row never touched by the sync update path. -/
def immutFields (t : TaskRow) :
    Nat × Nat × String × Option String × Option Json × Json × Int × List Nat × List Nat :=
  (t.id, t.search_space_id, t.user_id, t.source_type, t.external_id,
   t.external_url, t.created_at, t.linked_chat_ids, t.linked_document_ids)

/-- The fields of a task row overwritten by the sync update path (other
than `updated_at` and `completed_at`). -/
def mutFields (t : TaskRow) :
    String × Option String × Option String × Option Int × String × Option Json :=
  (t.title, t.description, t.priority, t.due_date, t.status, t.external_metadata)

/-- Equality of task rows on every field except `updated_at`. -/
def TaskEqMod (a b : TaskRow) : Prop :=
  immutFields a = immutFields b ∧ mutFields a = mutFields b ∧
    a.completed_at = b.completed_at

theorem immutFields_updateTask (now : Int) (info : TaskInfo) (t : TaskRow) :
    immutFields (updateTask now info t) = immutFields t := rfl

theorem mutFields_updateTask (now : Int) (info : TaskInfo) (t : TaskRow) :
    mutFields (updateTask now info t) =
      (info.title, info.description, info.priority, info.dueDate, info.status,
       some info.metadata) := rfl

theorem taskKey_updateTask (now : Int) (info : TaskInfo) (t : TaskRow) :
    taskKey (updateTask now info t) = taskKey t := rfl

theorem keyMatch_updateTask (ssid : Nat) (ct : String) (eid : Json) (now : Int)
    (info : TaskInfo) (t : TaskRow) :
    keyMatch ssid ct eid (updateTask now info t) = keyMatch ssid ct eid t := rfl

theorem keyMatch_of_immutFields (ssid : Nat) (ct : String) (eid : Json)
    {a b : TaskRow} (h : immutFields a = immutFields b) :
    keyMatch ssid ct eid a = keyMatch ssid ct eid b := by
  unfold keyMatch
  rw [show a.search_space_id = b.search_space_id from congrArg (fun x => x.2.1) h,
    show a.source_type = b.source_type from congrArg (fun x => x.2.2.2.1) h,
    show a.external_id = b.external_id from congrArg (fun x => x.2.2.2.2.1) h]

theorem completed_updateTask_of_some (now : Int) (info : TaskInfo) (t : TaskRow)
    (c : Int) (h : t.completed_at = some c) :
    (updateTask now info t).completed_at = some c := by
  unfold updateTask
  simp [h]

theorem keyMatch_newTask_self (tid ssid : Nat) (uid ct : String) (now : Int)
    (info : TaskInfo) :
    keyMatch ssid ct info.externalId (newTask tid ssid uid ct now info) = true := by
  simp [keyMatch, newTask]

theorem keyMatch_newTask_iff (tid ssid ssid' : Nat) (uid ct ct' : String) (now : Int)
    (info : TaskInfo) (eid : Json) :
    keyMatch ssid ct eid (newTask tid ssid' uid ct' now info) = true ↔
      (ssid' = ssid ∧ ct' = ct ∧ info.externalId = eid) := by
  simp [keyMatch, newTask, and_assoc]

/-- The extraction results of the per-document loop, in loop order,
skipping non-task documents; errors abort (state is rolled back, so only
the successful runs matter). -/
def extractItems : List (String × Doc) → Except PyErr (List (String × TaskInfo))
  | [] => .ok []
  | p :: ps =>
    match extractTaskInfo p.1 p.2 with
    | .error e => .error e
    | .ok none => extractItems ps
    | .ok (some info) =>
      match extractItems ps with
      | .error e => .error e
      | .ok its => .ok ((p.1, info) :: its)

/-- The reconciliation fold over already-extracted items. -/
def runItems (ssid : Nat) (uid : String) (now : Int) (s : SyncState) :
    List (String × TaskInfo) → Except PyErr SyncState
  | [] => .ok s
  | it :: its =>
    match applyItem ssid uid now s it with
    | .error e => .error e
    | .ok s' => runItems ssid uid now s' its

/-- Step equation: an extraction error aborts the loop body. -/
theorem syncStep_eq_err (ssid : Nat) (uid : String) (now : Int) (s : SyncState)
    {p : String × Doc} {e : PyErr} (h : extractTaskInfo p.1 p.2 = .error e) :
    syncStep ssid uid now s p = .error e := by
  unfold syncStep
  rw [h]

/-- Step equation: a non-task document is skipped. -/
theorem syncStep_eq_none (ssid : Nat) (uid : String) (now : Int) (s : SyncState)
    {p : String × Doc} (h : extractTaskInfo p.1 p.2 = .ok none) :
    syncStep ssid uid now s p = .ok s := by
  unfold syncStep
  rw [h]

/-- Step equation: a task document is reconciled. -/
theorem syncStep_eq_some (ssid : Nat) (uid : String) (now : Int) (s : SyncState)
    {p : String × Doc} {info : TaskInfo} (h : extractTaskInfo p.1 p.2 = .ok (some info)) :
    syncStep ssid uid now s p = applyItem ssid uid now s (p.1, info) := by
  unfold syncStep
  rw [h]

theorem runDocs_cons (ssid : Nat) (uid : String) (now : Int) (s : SyncState)
    (p : String × Doc) (ps : List (String × Doc)) :
    runDocs ssid uid now s (p :: ps) =
      match syncStep ssid uid now s p with
      | .error e => .error e
      | .ok s1 => runDocs ssid uid now s1 ps := rfl

theorem extractItems_eq_err {p : String × Doc} {ps : List (String × Doc)} {e : PyErr}
    (h : extractTaskInfo p.1 p.2 = .error e) : extractItems (p :: ps) = .error e := by
  unfold extractItems
  rw [h]

theorem extractItems_eq_none {p : String × Doc} {ps : List (String × Doc)}
    (h : extractTaskInfo p.1 p.2 = .ok none) : extractItems (p :: ps) = extractItems ps := by
  conv_lhs => rw [extractItems]
  rw [h]

theorem extractItems_eq_some {p : String × Doc} {ps : List (String × Doc)} {info : TaskInfo}
    (h : extractTaskInfo p.1 p.2 = .ok (some info)) :
    extractItems (p :: ps) =
      match extractItems ps with
      | .error e => .error e
      | .ok its => .ok ((p.1, info) :: its) := by
  conv_lhs => rw [extractItems]
  rw [h]

/-- A successful document fold is exactly a successful extraction followed
by a successful reconciliation fold (extraction is state-independent). -/
theorem runDocs_ok_iff (ssid : Nat) (uid : String) (now : Int) :
    ∀ (ps : List (String × Doc)) (s s' : SyncState),
      runDocs ssid uid now s ps = .ok s' ↔
        ∃ its, extractItems ps = .ok its ∧ runItems ssid uid now s its = .ok s'
  | [], s, s' => by
    constructor
    · intro h
      refine ⟨[], rfl, ?_⟩
      have h' : s = s' := by simpa [runDocs] using h
      subst h'
      rfl
    · rintro ⟨its, hits, hrun⟩
      have : its = [] := by simpa [extractItems] using hits.symm
      subst this
      have hrun' : s = s' := by simpa [runItems] using hrun
      subst hrun'
      rfl
  | p :: ps, s, s' => by
    cases hex : extractTaskInfo p.1 p.2 with
    | error e =>
      rw [runDocs_cons, syncStep_eq_err ssid uid now s hex]
      simp only [extractItems_eq_err hex]
      simp
    | ok oinfo =>
      cases oinfo with
      | none =>
        rw [runDocs_cons, syncStep_eq_none ssid uid now s hex]
        simp only [extractItems_eq_none hex]
        exact runDocs_ok_iff ssid uid now ps s s'
      | some info =>
        rw [runDocs_cons, syncStep_eq_some ssid uid now s hex]
        simp only [extractItems_eq_some hex]
        cases happ : applyItem ssid uid now s (p.1, info) with
        | error e =>
          constructor
          · intro h
            exact absurd h (by simp)
          · rintro ⟨its, hits, hrun⟩
            cases hler : extractItems ps with
            | error e' =>
              rw [hler] at hits
              exact absurd hits (by simp)
            | ok its' =>
              rw [hler] at hits
              have : its = (p.1, info) :: its' := by simpa using hits.symm
              subst this
              unfold runItems at hrun
              rw [happ] at hrun
              have hrun' : (Except.error e : Except PyErr SyncState) = Except.ok s' := hrun
              exact absurd hrun' (by simp)
        | ok s1 =>
          constructor
          · intro h
            have h' : runDocs ssid uid now s1 ps = Except.ok s' := h
            obtain ⟨its, hits, hrun⟩ := (runDocs_ok_iff ssid uid now ps s1 s').mp h'
            refine ⟨(p.1, info) :: its, ?_, ?_⟩
            · rw [hits]
            · unfold runItems
              rw [happ]
              exact hrun
          · rintro ⟨its, hits, hrun⟩
            cases hler : extractItems ps with
            | error e' =>
              rw [hler] at hits
              exact absurd hits (by simp)
            | ok its' =>
              rw [hler] at hits
              have : its = (p.1, info) :: its' := by simpa using hits.symm
              subst this
              unfold runItems at hrun
              rw [happ] at hrun
              have hrun' : runItems ssid uid now s1 its' = Except.ok s' := hrun
              show runDocs ssid uid now s1 ps = Except.ok s'
              exact (runDocs_ok_iff ssid uid now ps s1 s').mpr ⟨its', hler, hrun'⟩

/-- Reconciliation equation: zero key matches create a new task. -/
theorem applyItem_create (ssid : Nat) (uid : String) (now : Int) (s : SyncState)
    (it : String × TaskInfo)
    (hcount : s.tasks.countP (keyMatch ssid it.1 it.2.externalId) = 0) :
    applyItem ssid uid now s it = .ok
      ⟨s.tasks ++ [newTask s.nextId ssid uid it.1 now it.2], s.nextId + 1,
       s.synced ++ [newTask s.nextId ssid uid it.1 now it.2]⟩ := by
  unfold applyItem
  rw [hcount]

/-- Reconciliation equation: exactly one key match updates that row in
place and snapshots the updated row. -/
theorem applyItem_update (ssid : Nat) (uid : String) (now : Int) (s : SyncState)
    (it : String × TaskInfo) (j : Nat) (t0 : TaskRow)
    (hcount : s.tasks.countP (keyMatch ssid it.1 it.2.externalId) = 1)
    (hj : s.tasks[j]? = some t0)
    (hmatch : keyMatch ssid it.1 it.2.externalId t0 = true)
    (hfirst : ∀ (i : Nat) (y : TaskRow), i < j → s.tasks[i]? = some y →
      keyMatch ssid it.1 it.2.externalId y = false) :
    applyItem ssid uid now s it = .ok
      ⟨s.tasks.set j (updateTask now it.2 t0), s.nextId,
       s.synced ++ [updateTask now it.2 t0]⟩ := by
  unfold applyItem
  rw [hcount, updateFirst_eq_set _ _ s.tasks j t0 hj hmatch hfirst,
    find?_eq_of_first _ s.tasks j t0 hj hmatch hfirst]
  rfl

/-- Reconciliation equation: several key matches raise
`MultipleResultsFound`. -/
theorem applyItem_multi (ssid : Nat) (uid : String) (now : Int) (s : SyncState)
    (it : String × TaskInfo) (n : Nat)
    (hcount : s.tasks.countP (keyMatch ssid it.1 it.2.externalId) = n + 2) :
    applyItem ssid uid now s it = .error .multipleResults := by
  unfold applyItem
  rw [hcount]

/-- A sync over a single connector document that hits exactly one existing
task updates that row in place and returns its snapshot. -/
theorem sync_single_update (db : DB) (now : Int) (ssid : Nat) (uid ct : String)
    (doc : Doc) (info : TaskInfo) (j : Nat) (t0 : TaskRow)
    (hdocs : selectedDocs db ssid [ct] = [(ct, doc)])
    (hex : extractTaskInfo ct doc = .ok (some info))
    (hj : db.tasks[j]? = some t0)
    (hmatch : keyMatch ssid ct info.externalId t0 = true)
    (hfirst : ∀ (i : Nat) (y : TaskRow), i < j → db.tasks[i]? = some y →
      keyMatch ssid ct info.externalId y = false)
    (hcount : db.tasks.countP (keyMatch ssid ct info.externalId) = 1) :
    sync db now ssid uid [ct] = .ok
      ({ db with tasks := db.tasks.set j (updateTask now info t0) },
       [updateTask now info t0]) := by
  unfold sync
  rw [hdocs, runDocs_cons,
    @syncStep_eq_some ssid uid now ⟨db.tasks, db.nextTaskId, []⟩ (ct, doc) info hex,
    applyItem_update ssid uid now ⟨db.tasks, db.nextTaskId, []⟩ (ct, info) j t0
      hcount hj hmatch hfirst]
  rfl

/-- C4: when a sync over a connector document finds the existing task,
the update overwrites title, description, priority, due date, status,
external metadata and `updated_at` from the connector record, while
`completed_at` is set to now only when the new status is DONE and none
was previously set; a previously set `completed_at` is kept unchanged
(first-completion-wins under re-sync). -/
theorem C4_sync_update_existing (db : DB) (now : Int) (ssid : Nat) (uid ct : String)
    (doc : Doc) (info : TaskInfo) (j : Nat) (t0 : TaskRow)
    (hdocs : selectedDocs db ssid [ct] = [(ct, doc)])
    (hex : extractTaskInfo ct doc = .ok (some info))
    (hj : db.tasks[j]? = some t0)
    (hmatch : keyMatch ssid ct info.externalId t0 = true)
    (hfirst : ∀ (i : Nat) (y : TaskRow), i < j → db.tasks[i]? = some y →
      keyMatch ssid ct info.externalId y = false)
    (hcount : db.tasks.countP (keyMatch ssid ct info.externalId) = 1) :
    sync db now ssid uid [ct] = .ok
      ({ db with tasks := db.tasks.set j (updateTask now info t0) },
       [updateTask now info t0]) ∧
    (db.tasks.set j (updateTask now info t0))[j]? = some (updateTask now info t0) ∧
    (updateTask now info t0).title = info.title ∧
    (updateTask now info t0).description = info.description ∧
    (updateTask now info t0).priority = info.priority ∧
    (updateTask now info t0).due_date = info.dueDate ∧
    (updateTask now info t0).status = info.status ∧
    (updateTask now info t0).external_metadata = some info.metadata ∧
    (updateTask now info t0).updated_at = now ∧
    (info.status = "DONE" → t0.completed_at = none →
      (updateTask now info t0).completed_at = some now) ∧
    (∀ c0 : Int, t0.completed_at = some c0 →
      (updateTask now info t0).completed_at = some c0) := by
  refine ⟨sync_single_update db now ssid uid ct doc info j t0 hdocs hex hj hmatch
    hfirst hcount, ?_, rfl, rfl, rfl, rfl, rfl, rfl, rfl, ?_, ?_⟩
  · have hlt : j < db.tasks.length := by
      rcases List.getElem?_eq_some.mp hj with ⟨h, _⟩
      exact h
    simp [List.getElem?_set_self (by simpa using hlt)]
  · intro h1 h2
    unfold updateTask
    simp [h1, h2]
  · intro c0 hc0
    exact completed_updateTask_of_some now info t0 c0 hc0

/-- C10: the existing-task lookup matches only on
(search space, source type, external id), never on the user: a sync by a
different user updates the other user's task in place, leaves its
`user_id` unchanged, creates no separate task, and returns the updated
row. -/
theorem C10_sync_ignores_user (db : DB) (now : Int) (ssid : Nat) (uid ct : String)
    (doc : Doc) (info : TaskInfo) (j : Nat) (t0 : TaskRow)
    (hdocs : selectedDocs db ssid [ct] = [(ct, doc)])
    (hex : extractTaskInfo ct doc = .ok (some info))
    (hj : db.tasks[j]? = some t0)
    (hmatch : keyMatch ssid ct info.externalId t0 = true)
    (hfirst : ∀ (i : Nat) (y : TaskRow), i < j → db.tasks[i]? = some y →
      keyMatch ssid ct info.externalId y = false)
    (hcount : db.tasks.countP (keyMatch ssid ct info.externalId) = 1)
    (huser : t0.user_id ≠ uid) :
    sync db now ssid uid [ct] = .ok
      ({ db with tasks := db.tasks.set j (updateTask now info t0) },
       [updateTask now info t0]) ∧
    (db.tasks.set j (updateTask now info t0)).length = db.tasks.length ∧
    (updateTask now info t0).user_id = t0.user_id ∧
    t0.user_id ≠ uid ∧
    updateTask now info t0 ∈ [updateTask now info t0] := by
  exact ⟨sync_single_update db now ssid uid ct doc info j t0 hdocs hex hj hmatch
    hfirst hcount, by simp, rfl, huser, by simp⟩

/-- A default extraction record, used only to totalize `okInfo`. -/
def defaultInfo : TaskInfo :=
  { externalId := Json.null, title := "", description := none, priority := none,
    dueDate := none, status := "UNDONE", externalUrl := Json.null,
    metadata := Json.obj [] }

/-- Extraction component of a successful some-result. -/
def okInfo : Except PyErr (Option TaskInfo) → TaskInfo
  | .ok (some i) => i
  | _ => defaultInfo

/-- A LINEAR issue document fixture: done state, priority 1. -/
def linDoc : Doc :=
  { id := 7, search_space_id := 1, title := "Fix login bug",
    content := some "Users cannot log in", document_type := "LINEAR_CONNECTOR",
    document_metadata := Json.obj [("type", Json.str "issue"), ("id", Json.str "LIN-1"),
      ("priority", Json.num 1), ("state", Json.obj [("name", Json.str "Done")])],
    created_at := 50 }

/-- The extraction of `linDoc` as a LINEAR document. -/
def linInfo : TaskInfo := okInfo (extractTaskInfo "LINEAR" linDoc)

/-- An existing task matching `linDoc`'s reconciliation key, owned by
alice and already completed at time 100. -/
def aliceTask : TaskRow :=
  { defaultTask with
    id := 1, search_space_id := 1, user_id := "alice",
    source_type := some "LINEAR", external_id := some (Json.str "LIN-1"),
    status := "DONE", completed_at := some 100 }

/-- A database holding `linDoc` and alice's matching task. -/
def linDB : DB := { documents := [linDoc], chats := [], tasks := [aliceTask], nextTaskId := 2 }

/-- C4 witness: re-syncing the already-completed task at time 200 with a
still-done raw status keeps `completed_at` at 100 and overwrites the
mutable fields. -/
theorem C4_witness :
    sync linDB 200 1 "bob" ["LINEAR"] = .ok
      ({ linDB with tasks := linDB.tasks.set 0 (updateTask 200 linInfo aliceTask) },
       [updateTask 200 linInfo aliceTask]) ∧
    (updateTask 200 linInfo aliceTask).completed_at = some 100 ∧
    (updateTask 200 linInfo aliceTask).status = linInfo.status ∧
    (updateTask 200 linInfo aliceTask).priority = linInfo.priority ∧
    (updateTask 200 linInfo aliceTask).updated_at = 200 := by
  have h := C4_sync_update_existing linDB 200 1 "bob" "LINEAR" linDoc linInfo 0 aliceTask
    rfl rfl rfl rfl (fun i y hi _ => absurd hi (Nat.not_lt_zero i)) rfl
  exact ⟨h.1, h.2.2.2.2.2.2.2.2.2.2 100 rfl, h.2.2.2.2.2.2.1, h.2.2.2.2.1,
    h.2.2.2.2.2.2.2.2.1⟩

/-- C10 witness: bob's sync updates alice's task in place, leaving its
owner unchanged, and returns it. -/
theorem C10_witness :
    sync linDB 200 1 "bob" ["LINEAR"] = .ok
      ({ linDB with tasks := linDB.tasks.set 0 (updateTask 200 linInfo aliceTask) },
       [updateTask 200 linInfo aliceTask]) ∧
    (linDB.tasks.set 0 (updateTask 200 linInfo aliceTask)).length = linDB.tasks.length ∧
    (updateTask 200 linInfo aliceTask).user_id = aliceTask.user_id ∧
    aliceTask.user_id ≠ "bob" := by
  have h := C10_sync_ignores_user linDB 200 1 "bob" "LINEAR" linDoc linInfo 0 aliceTask
    rfl rfl rfl rfl (fun i y hi _ => absurd hi (Nat.not_lt_zero i)) rfl (by decide)
  exact ⟨h.1, h.2.1, h.2.2.1, h.2.2.2.1⟩

/-- Two tasks clash when they sit in the same search space and share the
same source type and the same non-null external id. -/
def keyClash (a b : TaskRow) : Prop :=
  a.search_space_id = b.search_space_id ∧ a.source_type = b.source_type ∧
    a.external_id ≠ none ∧ a.external_id = b.external_id

/-- The uniqueness invariant of the claim: no two stored tasks clash. -/
def TasksKeyUnique (ts : List TaskRow) : Prop :=
  List.Pairwise (fun a b => ¬ keyClash a b) ts

/-- The manual-task invariant of the claim, stated for the code's literal
manual tag `"MANUAL"` (the lookup and the predicate are case-sensitive;
no reachable task carries the lower-case tag at all). -/
def ManualNoExternal (ts : List TaskRow) : Prop :=
  ∀ t ∈ ts, t.source_type = some "MANUAL" → t.external_id = none

theorem keyClash_congr_left {a a' b : TaskRow} (h : taskKey a' = taskKey a) :
    keyClash a b ↔ keyClash a' b := by
  have h1 : a'.search_space_id = a.search_space_id := congrArg (fun x => x.1) h
  have h2 : a'.source_type = a.source_type := congrArg (fun x => x.2.1) h
  have h3 : a'.external_id = a.external_id := congrArg (fun x => x.2.2) h
  unfold keyClash
  rw [h1, h2, h3]

theorem keyClash_congr_right {a b b' : TaskRow} (h : taskKey b' = taskKey b) :
    keyClash a b ↔ keyClash a b' := by
  have h1 : b'.search_space_id = b.search_space_id := congrArg (fun x => x.1) h
  have h2 : b'.source_type = b.source_type := congrArg (fun x => x.2.1) h
  have h3 : b'.external_id = b.external_id := congrArg (fun x => x.2.2) h
  unfold keyClash
  rw [h1, h2, h3]

/-- Key uniqueness transfers along any pointwise key-preserving rewrite of
the task table. -/
theorem tasksKeyUnique_of_keys :
    ∀ {l l' : List TaskRow}, l.length = l'.length →
      (∀ (i : Nat) (x y : TaskRow), l[i]? = some x → l'[i]? = some y →
        taskKey y = taskKey x) →
      TasksKeyUnique l → TasksKeyUnique l'
  | [], [], _, _, _ => List.Pairwise.nil
  | [], _ :: _, hlen, _, _ => by simp at hlen
  | _ :: _, [], hlen, _, _ => by simp at hlen
  | x :: xs, y :: ys, hlen, hkeys, hu => by
    rw [TasksKeyUnique, List.pairwise_cons] at hu ⊢
    obtain ⟨hx, hxs⟩ := hu
    constructor
    · intro b' hb'
      obtain ⟨i, hi⟩ := List.mem_iff_getElem?.mp hb'
      have hix : i < xs.length := by
        rcases List.getElem?_eq_some.mp hi with ⟨hl, _⟩
        have hlen' := hlen
        simp only [List.length_cons] at hlen'
        omega
      have hb : xs[i]? = some (xs.get ⟨i, hix⟩) := by
        rw [List.getElem?_eq_some]
        exact ⟨hix, rfl⟩
      have hkb : taskKey b' = taskKey (xs.get ⟨i, hix⟩) := hkeys (i + 1) _ b'
        (by simpa using hb) (by simpa using hi)
      have hky : taskKey y = taskKey x := hkeys 0 x y (by simp) (by simp)
      rw [← keyClash_congr_left hky, ← keyClash_congr_right hkb]
      exact hx _ (List.getElem?_mem hb)
    · exact tasksKeyUnique_of_keys (by simpa using hlen)
        (fun i a b ha hb => hkeys (i + 1) a b (by simpa using ha) (by simpa using hb)) hxs

/-- Key uniqueness is preserved by a key-preserving positional update. -/
theorem tasksKeyUnique_set {l : List TaskRow} {j : Nat} {x y : TaskRow}
    (hu : TasksKeyUnique l) (hj : l[j]? = some x) (hk : taskKey y = taskKey x) :
    TasksKeyUnique (l.set j y) := by
  refine tasksKeyUnique_of_keys (by simp) ?_ hu
  intro i a b ha hb
  by_cases hij : i = j
  · subst hij
    have hx : a = x := by
      rw [hj] at ha
      exact (Option.some.inj ha).symm
    subst hx
    have hlt : i < l.length := by
      rcases List.getElem?_eq_some.mp hj with ⟨hl, _⟩
      exact hl
    have : b = y := by
      rw [List.getElem?_set_self (by simpa using hlt)] at hb
      exact (Option.some.inj hb).symm
    subst this
    exact hk
  · rw [List.getElem?_set_ne (by omega)] at hb
    rw [ha] at hb
    rw [(Option.some.inj hb).symm]

/-- Only the LINEAR and JIRA branches of `_is_task_document` can classify
a document as a task. -/
theorem extractTaskInfo_ct {ct : String} {doc : Doc} {info : TaskInfo}
    (h : extractTaskInfo ct doc = .ok (some info)) :
    ct = "LINEAR" ∨ ct = "JIRA" := by
  by_cases hL : ct = "LINEAR"
  · exact Or.inl hL
  by_cases hJ : ct = "JIRA"
  · exact Or.inr hJ
  exfalso
  unfold extractTaskInfo isTaskDocument at h
  rw [if_neg (by simp [hL]), if_neg (by simp [hJ])] at h
  by_cases hS : ct = "SLACK"
  · rw [if_pos (by simp [hS])] at h
    have h' : (Except.ok none : Except PyErr (Option TaskInfo)) = .ok (some info) := h
    simp at h'
  · rw [if_neg (by simp [hS])] at h
    have h' : (Except.ok none : Except PyErr (Option TaskInfo)) = .ok (some info) := h
    simp at h'

/-- Every item produced by extraction carries a LINEAR or JIRA tag. -/
theorem extractItems_ct :
    ∀ {ps : List (String × Doc)} {its : List (String × TaskInfo)},
      extractItems ps = .ok its → ∀ it ∈ its, it.1 = "LINEAR" ∨ it.1 = "JIRA"
  | [], its, h => by
    have : its = [] := by simpa [extractItems] using h.symm
    subst this
    intro it hit
    simp at hit
  | p :: ps, its, h => by
    revert h
    unfold extractItems
    cases hex : extractTaskInfo p.1 p.2 with
    | error e =>
      intro h
      exact absurd h (by simp)
    | ok oinfo =>
      cases oinfo with
      | none => exact fun h => extractItems_ct h
      | some info =>
        cases hler : extractItems ps with
        | error e =>
          intro h
          exact absurd h (by simp)
        | ok its' =>
          intro h
          have h' : (Except.ok ((p.1, info) :: its') : Except PyErr (List (String × TaskInfo))) = .ok its := h
          injection h' with hthis
          subst hthis
          intro it hit
          rcases List.mem_cons.mp hit with hhd | htl
          · subst hhd
            exact extractTaskInfo_ct hex
          · exact extractItems_ct hler it htl

theorem keyMatch_true_of_clash_new {a : TaskRow} {tid ssid : Nat} {uid ct : String}
    {now : Int} {info : TaskInfo}
    (h : keyClash a (newTask tid ssid uid ct now info)) :
    keyMatch ssid ct info.externalId a = true := by
  obtain ⟨hss, hst, hnn, heq⟩ := h
  have hss' : a.search_space_id = ssid := hss
  have hst' : a.source_type = some ct := hst
  have heq' : a.external_id = some info.externalId := heq
  unfold keyMatch
  rw [hss', hst', heq']
  simp

/-- One reconciliation step preserves key uniqueness and the manual-task
invariant (the item tag is LINEAR or JIRA, so no manual task is ever
created by sync). -/
theorem applyItem_inv (ssid : Nat) (uid : String) (now : Int) (s s' : SyncState)
    (it : String × TaskInfo)
    (happ : applyItem ssid uid now s it = .ok s')
    (hct : it.1 = "LINEAR" ∨ it.1 = "JIRA")
    (hu : TasksKeyUnique s.tasks) (hm : ManualNoExternal s.tasks) :
    TasksKeyUnique s'.tasks ∧ ManualNoExternal s'.tasks := by
  rcases hcnt : s.tasks.countP (keyMatch ssid it.1 it.2.externalId) with _ | _ | n
  · rw [applyItem_create ssid uid now s it hcnt] at happ
    injection happ with hs'
    subst hs'
    constructor
    · rw [TasksKeyUnique, List.pairwise_append]
      refine ⟨hu, by simp, ?_⟩
      intro a ha b hb
      have hb' : b = newTask s.nextId ssid uid it.1 now it.2 := by simpa using hb
      subst hb'
      intro hclash
      have hkm := keyMatch_true_of_clash_new hclash
      exact absurd hkm (by simpa using List.countP_eq_zero.mp hcnt a ha)
    · intro t ht hman
      rcases List.mem_append.mp ht with hl | hr
      · exact hm t hl hman
      · have ht' : t = newTask s.nextId ssid uid it.1 now it.2 := by simpa using hr
        subst ht'
        have : it.1 = "MANUAL" := by
          have := hman
          simp [newTask] at this
          exact this
        rcases hct with h1 | h1 <;> rw [h1] at this <;> exact absurd this (by decide)
  · obtain ⟨j, x, hj, hx, hfirst, _⟩ := countP_eq_one_spec hcnt
    rw [applyItem_update ssid uid now s it j x hcnt hj hx hfirst] at happ
    injection happ with hs'
    subst hs'
    constructor
    · exact tasksKeyUnique_set hu hj (taskKey_updateTask now it.2 x)
    · intro t ht hman
      rcases List.mem_or_eq_of_mem_set ht with hl | hr
      · exact hm t hl hman
      · subst hr
        have hx' : x.source_type = some "MANUAL" := hman
        have : x.external_id = none := hm x (List.getElem?_mem hj) hx'
        exact this
  · rw [applyItem_multi ssid uid now s it n hcnt] at happ
    exact absurd happ (by simp)

/-- The reconciliation fold preserves both invariants. -/
theorem runItems_inv (ssid : Nat) (uid : String) (now : Int) :
    ∀ (its : List (String × TaskInfo)) (s s' : SyncState),
      runItems ssid uid now s its = .ok s' →
      (∀ it ∈ its, it.1 = "LINEAR" ∨ it.1 = "JIRA") →
      TasksKeyUnique s.tasks → ManualNoExternal s.tasks →
      TasksKeyUnique s'.tasks ∧ ManualNoExternal s'.tasks
  | [], s, s', h, _, hu, hm => by
    have h' : s = s' := by simpa [runItems] using h
    subst h'
    exact ⟨hu, hm⟩
  | it :: its, s, s', h, hct, hu, hm => by
    revert h
    unfold runItems
    cases happ : applyItem ssid uid now s it with
    | error e =>
      intro h
      exact absurd h (by simp)
    | ok s1 =>
      intro h
      have hstep := applyItem_inv ssid uid now s s1 it happ (hct it (by simp)) hu hm
      exact runItems_inv ssid uid now its s1 s' h
        (fun x hx => hct x (List.mem_cons_of_mem it hx)) hstep.1 hstep.2

/-- When a Boolean filter returns a list headed by `t0`, `t0` is the first
matching element of the underlying list. -/
theorem filter_head_first {p : α → Bool} :
    ∀ {l : List α} {t0 : α} {rest : List α}, l.filter p = t0 :: rest →
      ∃ j : Nat, l[j]? = some t0 ∧ p t0 = true ∧
        (∀ (i : Nat) (y : α), i < j → l[i]? = some y → p y = false)
  | [], t0, rest, h => by simp at h
  | z :: zs, t0, rest, h => by
    by_cases hz : p z = true
    · rw [List.filter_cons_of_pos hz] at h
      injection h with h1 _
      subst h1
      exact ⟨0, by simp, hz, by omega⟩
    · rw [List.filter_cons_of_neg (by simpa using hz)] at h
      obtain ⟨j, hj, ht0, hfirst⟩ := filter_head_first h
      refine ⟨j + 1, by simpa using hj, ht0, ?_⟩
      intro i y hi hy
      match i with
      | 0 =>
        have : y = z := by
          have := hy
          simp at this
          exact this.symm
        subst this
        simpa using hz
      | i + 1 =>
        exact hfirst i y (by omega) (by simpa using hy)

/-- Appending a task without an external id preserves key uniqueness. -/
theorem tasksKeyUnique_append_noExternal {l : List TaskRow} {t : TaskRow}
    (hu : TasksKeyUnique l) (ht : t.external_id = none) :
    TasksKeyUnique (l ++ [t]) := by
  rw [TasksKeyUnique, List.pairwise_append]
  refine ⟨hu, by simp, ?_⟩
  intro a ha b hb
  have hb' : b = t := by simpa using hb
  subst hb'
  intro hclash
  obtain ⟨_, _, hnn, heq⟩ := hclash
  rw [ht] at heq
  exact hnn heq

/-- Appending a task without an external id preserves the manual-task
invariant. -/
theorem manualNoExternal_append {l : List TaskRow} {t : TaskRow}
    (hm : ManualNoExternal l) (ht : t.external_id = none) :
    ManualNoExternal (l ++ [t]) := by
  intro x hx hman
  rcases List.mem_append.mp hx with hl | hr
  · exact hm x hl hman
  · have : x = t := by simpa using hr
    subst this
    exact ht

/-- C8: in every state reachable by this core's operations, no two tasks
of the same search space share a (source type, external id) pair with a
non-null external id, and every task with the manual source tag has a
null external id. -/
theorem C8_reachable_invariants (db : DB) (h : Reachable db) :
    TasksKeyUnique db.tasks ∧ ManualNoExternal db.tasks := by
  induction h with
  | init =>
    exact ⟨List.Pairwise.nil, by intro t ht; simp at ht⟩
  | env db ds cs _ ih => exact ih
  | runSync db db' now ssid uid cts l _ hs ih =>
    unfold sync at hs
    revert hs
    cases hrun : runDocs ssid uid now ⟨db.tasks, db.nextTaskId, []⟩ (selectedDocs db ssid cts) with
    | error e =>
      intro hs
      exact absurd hs (by simp)
    | ok s =>
      intro hs
      injection hs with hpair
      injection hpair with hdb _
      obtain ⟨its, hits, hruni⟩ :=
        (runDocs_ok_iff ssid uid now (selectedDocs db ssid cts) _ s).mp hrun
      have hres := runItems_inv ssid uid now its ⟨db.tasks, db.nextTaskId, []⟩ s hruni
        (extractItems_ct hits) ih.1 ih.2
      rw [← hdb]
      exact hres
  | runComplete db db' now tid uid t _ hc ih =>
    unfold completeTask at hc
    revert hc
    rcases hf : completeFind db tid uid with _ | ⟨t0, _ | ⟨t1, rest⟩⟩
    · intro hc
      exact absurd hc (by simp)
    · intro hc
      have hc' : (Except.ok
          ({ db with
             tasks := updateFirst (fun u => u.id == tid && u.user_id == uid)
               (fun _ => completeUpdated db now t0) db.tasks }, completeUpdated db now t0) :
          Except PyErr (DB × TaskRow)) =
          Except.ok (db', t) := hc
      injection hc' with hpair
      injection hpair with hdb _
      have hf' : db.tasks.filter (fun u => u.id == tid && u.user_id == uid) =
          t0 :: [] := hf
      obtain ⟨j, hj, hp, hfirst⟩ := filter_head_first hf'
      have hset : updateFirst (fun u => u.id == tid && u.user_id == uid)
          (fun _ => completeUpdated db now t0) db.tasks =
          db.tasks.set j (completeUpdated db now t0) :=
        updateFirst_eq_set _ _ db.tasks j t0 hj hp hfirst
      rw [← hdb]
      constructor
      · show TasksKeyUnique (updateFirst (fun u => u.id == tid && u.user_id == uid)
          (fun _ => completeUpdated db now t0) db.tasks)
        rw [hset]
        exact tasksKeyUnique_set ih.1 hj rfl
      · show ManualNoExternal (updateFirst (fun u => u.id == tid && u.user_id == uid)
          (fun _ => completeUpdated db now t0) db.tasks)
        rw [hset]
        intro x hx hman
        rcases List.mem_or_eq_of_mem_set hx with hl | hr
        · exact ih.2 x hl hman
        · subst hr
          exact ih.2 t0 (List.getElem?_mem hj) hman
    · intro hc
      exact absurd hc (by simp)
  | runManual db now td uid _ ih =>
    exact ⟨tasksKeyUnique_append_noExternal ih.1 rfl,
      manualNoExternal_append ih.2 rfl⟩

/-- C8 witness: the invariants hold in the concrete state reached by
creating one manual task from the empty database. -/
theorem C8_witness :
    TasksKeyUnique
      (createManualTask ⟨[], [], [], 1⟩ 5 ⟨1, "Buy milk", none, none, none⟩ "u").1.tasks ∧
    ManualNoExternal
      (createManualTask ⟨[], [], [], 1⟩ 5 ⟨1, "Buy milk", none, none, none⟩ "u").1.tasks :=
  C8_reachable_invariants _
    (Reachable.runManual ⟨[], [], [], 1⟩ 5 ⟨1, "Buy milk", none, none, none⟩ "u"
      Reachable.init)

theorem keyMatch_congr_key (a : Nat) (b : String) (c : Json) {x y : TaskRow}
    (h : taskKey y = taskKey x) : keyMatch a b c y = keyMatch a b c x := by
  unfold keyMatch
  rw [show y.search_space_id = x.search_space_id from congrArg (fun v => v.1) h,
    show y.source_type = x.source_type from congrArg (fun v => v.2.1) h,
    show y.external_id = x.external_id from congrArg (fun v => v.2.2) h]

theorem countP_keyMatch_set (a : Nat) (b : String) (c : Json)
    {l : List TaskRow} {j : Nat} {x y : TaskRow}
    (hj : l[j]? = some x) (hk : taskKey y = taskKey x) :
    (l.set j y).countP (keyMatch a b c) = l.countP (keyMatch a b c) := by
  refine countP_congr_idx (by simp) ?_
  intro i u v hu hv
  by_cases hij : i = j
  · subst hij
    have hlt : i < l.length := by
      rcases List.getElem?_eq_some.mp hj with ⟨hl, _⟩
      exact hl
    have hu' : u = y := by
      rw [List.getElem?_set_self (by simpa using hlt)] at hu
      exact (Option.some.inj hu).symm
    have hv' : v = x := by
      rw [hj] at hv
      exact (Option.some.inj hv).symm
    subst hu'
    subst hv'
    exact keyMatch_congr_key a b c hk
  · rw [List.getElem?_set_ne (by omega)] at hu
    rw [hu] at hv
    rw [(Option.some.inj hv).symm]

/-- Run-1 stability: the fold never moves or removes rows, never changes
the immutable fields of an existing row, and never clears a set
completion timestamp. -/
theorem runItems_stable (ssid : Nat) (uid : String) (now : Int) :
    ∀ (its : List (String × TaskInfo)) (S F : SyncState),
      runItems ssid uid now S its = .ok F →
      S.tasks.length ≤ F.tasks.length ∧
      (∀ (j : Nat) (t : TaskRow), S.tasks[j]? = some t →
        ∃ t', F.tasks[j]? = some t' ∧ immutFields t' = immutFields t ∧
          (∀ c : Int, t.completed_at = some c → t'.completed_at = some c))
  | [], S, F, h => by
    have h' : S = F := by simpa [runItems] using h
    subst h'
    exact ⟨Nat.le_refl _, fun j t hj => ⟨t, hj, rfl, fun c hc => hc⟩⟩
  | it :: its, S, F, h => by
    revert h
    unfold runItems
    cases happ : applyItem ssid uid now S it with
    | error e =>
      intro h
      exact absurd h (by simp)
    | ok S1 =>
      intro h
      have ih := runItems_stable ssid uid now its S1 F h
      rcases hcnt : S.tasks.countP (keyMatch ssid it.1 it.2.externalId) with _ | _ | n
      · rw [applyItem_create ssid uid now S it hcnt] at happ
        injection happ with hS1
        subst hS1
        refine ⟨by simpa using Nat.le_trans (by simp) ih.1, ?_⟩
        intro j t hj
        have hlt : j < S.tasks.length := by
          rcases List.getElem?_eq_some.mp hj with ⟨hl, _⟩
          exact hl
        have hj1 : (S.tasks ++
            [newTask S.nextId ssid uid it.1 now it.2])[j]? = some t := by
          rw [List.getElem?_append_left hlt]
          exact hj
        exact ih.2 j t hj1
      · obtain ⟨js, xs, hjs, hxs, hfirst, _⟩ := countP_eq_one_spec hcnt
        rw [applyItem_update ssid uid now S it js xs hcnt hjs hxs hfirst] at happ
        injection happ with hS1
        subst hS1
        refine ⟨by simpa using ih.1, ?_⟩
        intro j t hj
        by_cases hij : j = js
        · subst hij
          have hxt : xs = t := by
            rw [hjs] at hj
            exact Option.some.inj hj
          subst hxt
          have hlt : j < S.tasks.length := by
            rcases List.getElem?_eq_some.mp hjs with ⟨hl, _⟩
            exact hl
          have hj1 : (S.tasks.set j (updateTask now it.2 xs))[j]? =
              some (updateTask now it.2 xs) := by
            rw [List.getElem?_set_self (by simpa using hlt)]
          obtain ⟨t', ht', himm, hcomp⟩ := ih.2 j (updateTask now it.2 xs) hj1
          exact ⟨t', ht', himm.trans (immutFields_updateTask now it.2 xs), fun c hc =>
            hcomp c (completed_updateTask_of_some now it.2 xs c hc)⟩
        · have hj1 : (S.tasks.set js (updateTask now it.2 xs))[j]? = some t := by
            rw [List.getElem?_set_ne (by omega)]
            exact hj
          exact ih.2 j t hj1
      · rw [applyItem_multi ssid uid now S it n hcnt] at happ
        exact absurd happ (by simp)

/-- Run-1 count stability: a key that already has a match never gains or
loses matches during the fold. -/
theorem runItems_countP_stable (ssid : Nat) (uid : String) (now : Int)
    (a : Nat) (b : String) (c : Json) :
    ∀ (its : List (String × TaskInfo)) (S F : SyncState),
      runItems ssid uid now S its = .ok F →
      1 ≤ S.tasks.countP (keyMatch a b c) →
      F.tasks.countP (keyMatch a b c) = S.tasks.countP (keyMatch a b c)
  | [], S, F, h, _ => by
    have h' : S = F := by simpa [runItems] using h
    subst h'
    rfl
  | it :: its, S, F, h, hge => by
    revert h
    unfold runItems
    cases happ : applyItem ssid uid now S it with
    | error e =>
      intro h
      exact absurd h (by simp)
    | ok S1 =>
      intro h
      rcases hcnt : S.tasks.countP (keyMatch ssid it.1 it.2.externalId) with _ | _ | n
      · rw [applyItem_create ssid uid now S it hcnt] at happ
        injection happ with hS1
        subst hS1
        have hnew : keyMatch a b c (newTask S.nextId ssid uid it.1 now it.2) = false := by
          cases hb : keyMatch a b c (newTask S.nextId ssid uid it.1 now it.2) with
          | false => rfl
          | true =>
            obtain ⟨h1, h2, h3⟩ :=
              (keyMatch_newTask_iff S.nextId a ssid uid b it.1 now it.2 c).mp hb
            rw [← h1, ← h2, ← h3] at hge
            rw [hcnt] at hge
            exact absurd hge (by omega)
        have hone : (S.tasks ++ [newTask S.nextId ssid uid it.1 now it.2]).countP
            (keyMatch a b c) = S.tasks.countP (keyMatch a b c) := by
          rw [List.countP_append]
          simp [List.countP_cons, hnew]
        have hrec := runItems_countP_stable ssid uid now a b c its _ F h
          (by rw [show (⟨S.tasks ++ [newTask S.nextId ssid uid it.1 now it.2],
            S.nextId + 1, S.synced ++ [newTask S.nextId ssid uid it.1 now it.2]⟩ :
            SyncState).tasks = S.tasks ++ [newTask S.nextId ssid uid it.1 now it.2]
            from rfl, hone]; exact hge)
        rw [hrec]
        exact hone
      · obtain ⟨js, xs, hjs, hxs, hfirst, _⟩ := countP_eq_one_spec hcnt
        rw [applyItem_update ssid uid now S it js xs hcnt hjs hxs hfirst] at happ
        injection happ with hS1
        subst hS1
        have hc1 : (S.tasks.set js (updateTask now it.2 xs)).countP (keyMatch a b c) =
            S.tasks.countP (keyMatch a b c) :=
          countP_keyMatch_set a b c hjs (taskKey_updateTask now it.2 xs)
        have hrec := runItems_countP_stable ssid uid now a b c its _ F h
          (by rw [show (⟨S.tasks.set js (updateTask now it.2 xs), S.nextId,
            S.synced ++ [updateTask now it.2 xs]⟩ : SyncState).tasks =
            S.tasks.set js (updateTask now it.2 xs) from rfl, hc1]; exact hge)
        rw [hrec]
        exact hc1
      · rw [applyItem_multi ssid uid now S it n hcnt] at happ
        exact absurd happ (by simp)

/-- Simulation invariant for the idempotence proof, relating the final
first-run state `F`, the current first-run state `S`, and the current
second-run state `T`: the second run has the same table shape and id
counter as `F`, never changes immutable fields or completion timestamps
away from `F`'s, holds `F`'s or `S`'s mutable fields per row, and has not
yet touched rows the first run had not yet created. -/
def SimInv (F S T : SyncState) : Prop :=
  T.tasks.length = F.tasks.length ∧
  T.nextId = F.nextId ∧
  (∀ (j : Nat) (tF tT : TaskRow), F.tasks[j]? = some tF → T.tasks[j]? = some tT →
    immutFields tT = immutFields tF ∧ tT.completed_at = tF.completed_at) ∧
  (∀ (j : Nat) (tF tT : TaskRow), F.tasks[j]? = some tF → T.tasks[j]? = some tT →
    (mutFields tT = mutFields tF ∨
      ∃ tS, S.tasks[j]? = some tS ∧ mutFields tT = mutFields tS)) ∧
  (∀ (j : Nat) (tF tT : TaskRow), S.tasks.length ≤ j → F.tasks[j]? = some tF →
    T.tasks[j]? = some tT → tT = tF)

/-- When `F` has exactly one row matching a key, a `T` that agrees with
`F` on shape and immutable fields has exactly one match too, at the same
index, and it is the first match. -/
theorem simT_update_point (a : Nat) (b : String) (c : Json) {F T : SyncState}
    (hlen : T.tasks.length = F.tasks.length)
    (himm : ∀ (j : Nat) (tF tT : TaskRow), F.tasks[j]? = some tF →
      T.tasks[j]? = some tT → immutFields tT = immutFields tF)
    (hFcount : F.tasks.countP (keyMatch a b c) = 1)
    {jd : Nat} {tFd : TaskRow} (hjd : F.tasks[jd]? = some tFd)
    (hkFd : keyMatch a b c tFd = true) :
    T.tasks.countP (keyMatch a b c) = 1 ∧
    ∃ xT, T.tasks[jd]? = some xT ∧ keyMatch a b c xT = true ∧
      (∀ (i : Nat) (y : TaskRow), i < jd → T.tasks[i]? = some y →
        keyMatch a b c y = false) ∧
      immutFields xT = immutFields tFd := by
  have hTcount : T.tasks.countP (keyMatch a b c) = F.tasks.countP (keyMatch a b c) := by
    refine countP_congr_idx hlen ?_
    intro i x y hx hy
    exact keyMatch_of_immutFields a b c (himm i y x hy hx)
  rw [hFcount] at hTcount
  obtain ⟨jT, xT, hjT, hxT, hfirstT, huniqT⟩ := countP_eq_one_spec hTcount
  have hjdF : jd < F.tasks.length := by
    rcases List.getElem?_eq_some.mp hjd with ⟨hl, _⟩
    exact hl
  have hjdT : jd < T.tasks.length := by omega
  have hTd : T.tasks[jd]? = some (T.tasks.get ⟨jd, hjdT⟩) := by
    rw [List.getElem?_eq_some]
    exact ⟨hjdT, rfl⟩
  have hkTd : keyMatch a b c (T.tasks.get ⟨jd, hjdT⟩) = true := by
    rw [keyMatch_of_immutFields a b c (himm jd tFd (T.tasks.get ⟨jd, hjdT⟩) hjd hTd)]
    exact hkFd
  have heq : jd = jT := huniqT jd (T.tasks.get ⟨jd, hjdT⟩) hTd hkTd
  subst heq
  have hxTd : xT = T.tasks.get ⟨jd, hjdT⟩ := by
    rw [hTd] at hjT
    exact (Option.some.inj hjT).symm
  refine ⟨hTcount, xT, hjT, hxT, hfirstT, ?_⟩
  rw [hxTd]
  exact himm jd tFd (T.tasks.get ⟨jd, hjdT⟩) hjd hTd

theorem newTask_completed_done (tid ssid : Nat) (uid ct : String) (now : Int)
    (info : TaskInfo) (h : info.status = "DONE") :
    (newTask tid ssid uid ct now info).completed_at = some now := by
  simp [newTask, h]

theorem updateTask_completed_of_ne_done (now : Int) (info : TaskInfo) (t : TaskRow)
    (h : ¬ info.status = "DONE") :
    (updateTask now info t).completed_at = t.completed_at := by
  simp [updateTask, h]

theorem updateTask_completed_done_some (now : Int) (info : TaskInfo) (t : TaskRow)
    (h : info.status = "DONE") :
    ∃ c : Int, (updateTask now info t).completed_at = some c := by
  rcases hc : t.completed_at with _ | c
  · exact ⟨now, by simp [updateTask, h, hc]⟩
  · exact ⟨c, by simp [updateTask, hc]⟩

/-- The second-run update leaves the completion timestamp at `F`'s value:
either the status is not DONE (no write), or `F`'s timestamp is already
set and so is the current one. -/
theorem updateTask_completed_match (now2 : Int) (info : TaskInfo) {xT tFd : TaskRow}
    (hxc : xT.completed_at = tFd.completed_at)
    (hdone : info.status = "DONE" → ¬ tFd.completed_at = none) :
    (updateTask now2 info xT).completed_at = tFd.completed_at := by
  by_cases hd : info.status = "DONE"
  · rcases hc : tFd.completed_at with _ | c
    · exact absurd hc (hdone hd)
    · rw [← hc]
      exact (completed_updateTask_of_some now2 info xT c (hxc.trans hc)).trans hc.symm
  · rw [updateTask_completed_of_ne_done now2 info xT hd, hxc]

/-- The simulation: a second reconciliation fold over the same items,
started from the first fold's final table, succeeds and reproduces that
table up to `updated_at`. -/
theorem runItems_sim (ssid : Nat) (uid : String) (now1 now2 : Int) :
    ∀ (its : List (String × TaskInfo)) (S T F : SyncState),
      runItems ssid uid now1 S its = .ok F → SimInv F S T →
      ∃ T', runItems ssid uid now2 T its = .ok T' ∧ SimInv F F T'
  | [], S, T, F, h, hinv => by
    have h' : S = F := by simpa [runItems] using h
    subst h'
    exact ⟨T, rfl, hinv⟩
  | it :: its, S, T, F, h, hinv => by
    obtain ⟨hlen, hnid, himmc, hmut, htail⟩ := hinv
    revert h
    unfold runItems
    cases happ1 : applyItem ssid uid now1 S it with
    | error e =>
      intro h
      exact absurd h (by simp)
    | ok S1 =>
      intro h
      rcases hcnt : S.tasks.countP (keyMatch ssid it.1 it.2.externalId) with _ | _ | n
      · -- create case: the first run appended a new task at index S.tasks.length
        rw [applyItem_create ssid uid now1 S it hcnt] at happ1
        injection happ1 with hS1
        subst hS1
        have hcnt1 : (S.tasks ++ [newTask S.nextId ssid uid it.1 now1 it.2]).countP
            (keyMatch ssid it.1 it.2.externalId) = 1 := by
          rw [List.countP_append, hcnt]
          simp [List.countP_cons,
            keyMatch_newTask_self S.nextId ssid uid it.1 now1 it.2]
        have hstab := runItems_countP_stable ssid uid now1 ssid it.1 it.2.externalId
          its _ F h
          (by rw [show (⟨S.tasks ++ [newTask S.nextId ssid uid it.1 now1 it.2],
            S.nextId + 1, S.synced ++ [newTask S.nextId ssid uid it.1 now1 it.2]⟩ :
            SyncState).tasks = S.tasks ++ [newTask S.nextId ssid uid it.1 now1 it.2]
            from rfl, hcnt1])
        have hFcount : F.tasks.countP (keyMatch ssid it.1 it.2.externalId) = 1 := by
          rw [hstab]
          exact hcnt1
        have hjd1 := List.getElem?_concat_length S.tasks
          (newTask S.nextId ssid uid it.1 now1 it.2)
        obtain ⟨tFd, hFd, himmFd, hcompFd⟩ := (runItems_stable ssid uid now1 its _ F h).2
          S.tasks.length (newTask S.nextId ssid uid it.1 now1 it.2) hjd1
        have hkFd : keyMatch ssid it.1 it.2.externalId tFd = true := by
          rw [keyMatch_of_immutFields ssid it.1 it.2.externalId himmFd]
          exact keyMatch_newTask_self S.nextId ssid uid it.1 now1 it.2
        obtain ⟨hTcount, xT, hjTd, hkxT, hfirstT, himmxT⟩ := simT_update_point
          ssid it.1 it.2.externalId hlen
          (fun j a b hF hT => (himmc j a b hF hT).1) hFcount hFd hkFd
        have happ2 := applyItem_update ssid uid now2 T it S.tasks.length xT
          hTcount hjTd hkxT hfirstT
        have hjdF : S.tasks.length < F.tasks.length := by
          rcases List.getElem?_eq_some.mp hFd with ⟨hl, _⟩
          exact hl
        have hjdT : S.tasks.length < T.tasks.length := by omega
        have hxcomp : xT.completed_at = tFd.completed_at :=
          (himmc S.tasks.length tFd xT hFd hjTd).2
        have hdone : it.2.status = "DONE" → ¬ tFd.completed_at = none := by
          intro hd
          have h1 := newTask_completed_done S.nextId ssid uid it.1 now1 it.2 hd
          rw [hcompFd now1 h1]
          simp
        have hinv2 : SimInv F
            ⟨S.tasks ++ [newTask S.nextId ssid uid it.1 now1 it.2],
              S.nextId + 1, S.synced ++ [newTask S.nextId ssid uid it.1 now1 it.2]⟩
            ⟨T.tasks.set S.tasks.length (updateTask now2 it.2 xT), T.nextId,
              T.synced ++ [updateTask now2 it.2 xT]⟩ := by
          refine ⟨by simpa using hlen, hnid, ?_, ?_, ?_⟩
          · intro j tF tT hF hT
            by_cases hj : j = S.tasks.length
            · subst hj
              have htT : tT = updateTask now2 it.2 xT := by
                rw [show (⟨T.tasks.set S.tasks.length (updateTask now2 it.2 xT), T.nextId,
                  T.synced ++ [updateTask now2 it.2 xT]⟩ : SyncState).tasks =
                  T.tasks.set S.tasks.length (updateTask now2 it.2 xT) from rfl,
                  List.getElem?_set_self (by simpa using hjdT)] at hT
                exact (Option.some.inj hT).symm
              have htF : tF = tFd := by
                rw [hFd] at hF
                exact (Option.some.inj hF).symm
              subst htT
              subst htF
              exact ⟨(immutFields_updateTask now2 it.2 xT).trans himmxT,
                updateTask_completed_match now2 it.2 hxcomp hdone⟩
            · have hT' : T.tasks[j]? = some tT := by
                rw [show (⟨T.tasks.set S.tasks.length (updateTask now2 it.2 xT), T.nextId,
                  T.synced ++ [updateTask now2 it.2 xT]⟩ : SyncState).tasks =
                  T.tasks.set S.tasks.length (updateTask now2 it.2 xT) from rfl,
                  List.getElem?_set_ne (by omega)] at hT
                exact hT
              exact himmc j tF tT hF hT'
          · intro j tF tT hF hT
            by_cases hj : j = S.tasks.length
            · subst hj
              have htT : tT = updateTask now2 it.2 xT := by
                rw [show (⟨T.tasks.set S.tasks.length (updateTask now2 it.2 xT), T.nextId,
                  T.synced ++ [updateTask now2 it.2 xT]⟩ : SyncState).tasks =
                  T.tasks.set S.tasks.length (updateTask now2 it.2 xT) from rfl,
                  List.getElem?_set_self (by simpa using hjdT)] at hT
                exact (Option.some.inj hT).symm
              subst htT
              exact Or.inr ⟨newTask S.nextId ssid uid it.1 now1 it.2, hjd1, rfl⟩
            · have hT' : T.tasks[j]? = some tT := by
                rw [show (⟨T.tasks.set S.tasks.length (updateTask now2 it.2 xT), T.nextId,
                  T.synced ++ [updateTask now2 it.2 xT]⟩ : SyncState).tasks =
                  T.tasks.set S.tasks.length (updateTask now2 it.2 xT) from rfl,
                  List.getElem?_set_ne (by omega)] at hT
                exact hT
              rcases hmut j tF tT hF hT' with hleft | ⟨tS, hS, hm⟩
              · exact Or.inl hleft
              · have hjS : j < S.tasks.length := by
                  rcases List.getElem?_eq_some.mp hS with ⟨hl, _⟩
                  exact hl
                exact Or.inr ⟨tS, by
                  rw [show (⟨S.tasks ++ [newTask S.nextId ssid uid it.1 now1 it.2],
                    S.nextId + 1,
                    S.synced ++ [newTask S.nextId ssid uid it.1 now1 it.2]⟩ :
                    SyncState).tasks =
                    S.tasks ++ [newTask S.nextId ssid uid it.1 now1 it.2] from rfl,
                    List.getElem?_append_left hjS]
                  exact hS, hm⟩
          · intro j tF tT hjge hF hT
            have hjge' : S.tasks.length + 1 ≤ j := by simpa using hjge
            have hT' : T.tasks[j]? = some tT := by
              rw [show (⟨T.tasks.set S.tasks.length (updateTask now2 it.2 xT), T.nextId,
                T.synced ++ [updateTask now2 it.2 xT]⟩ : SyncState).tasks =
                T.tasks.set S.tasks.length (updateTask now2 it.2 xT) from rfl,
                List.getElem?_set_ne (by omega)] at hT
              exact hT
            exact htail j tF tT (by omega) hF hT'
        obtain ⟨T', hT', hfin⟩ := runItems_sim ssid uid now1 now2 its _ _ F h hinv2
        refine ⟨T', ?_, hfin⟩
        show (match applyItem ssid uid now2 T it with
          | Except.error e => Except.error e
          | Except.ok s1 => runItems ssid uid now2 s1 its) = Except.ok T'
        rw [happ2]
        exact hT'
      · -- update case: the first run updated the unique match at index js
        obtain ⟨js, xs, hjs, hxs, hfirstS, _⟩ := countP_eq_one_spec hcnt
        rw [applyItem_update ssid uid now1 S it js xs hcnt hjs hxs hfirstS] at happ1
        injection happ1 with hS1
        subst hS1
        have hjsS : js < S.tasks.length := by
          rcases List.getElem?_eq_some.mp hjs with ⟨hl, _⟩
          exact hl
        have hcnt1 : (S.tasks.set js (updateTask now1 it.2 xs)).countP
            (keyMatch ssid it.1 it.2.externalId) = 1 := by
          rw [countP_keyMatch_set ssid it.1 it.2.externalId hjs
            (taskKey_updateTask now1 it.2 xs)]
          exact hcnt
        have hstab := runItems_countP_stable ssid uid now1 ssid it.1 it.2.externalId
          its _ F h
          (by rw [show (⟨S.tasks.set js (updateTask now1 it.2 xs), S.nextId,
            S.synced ++ [updateTask now1 it.2 xs]⟩ : SyncState).tasks =
            S.tasks.set js (updateTask now1 it.2 xs) from rfl, hcnt1])
        have hFcount : F.tasks.countP (keyMatch ssid it.1 it.2.externalId) = 1 := by
          rw [hstab]
          exact hcnt1
        have hjd1 : (S.tasks.set js (updateTask now1 it.2 xs))[js]? =
            some (updateTask now1 it.2 xs) := by
          rw [List.getElem?_set_self (by simpa using hjsS)]
        obtain ⟨tFd, hFd, himmFd, hcompFd⟩ := (runItems_stable ssid uid now1 its _ F h).2
          js (updateTask now1 it.2 xs) hjd1
        have hkFd : keyMatch ssid it.1 it.2.externalId tFd = true := by
          rw [keyMatch_of_immutFields ssid it.1 it.2.externalId himmFd,
            keyMatch_updateTask ssid it.1 it.2.externalId now1 it.2 xs]
          exact hxs
        obtain ⟨hTcount, xT, hjTd, hkxT, hfirstT, himmxT⟩ := simT_update_point
          ssid it.1 it.2.externalId hlen
          (fun j a b hF hT => (himmc j a b hF hT).1) hFcount hFd hkFd
        have happ2 := applyItem_update ssid uid now2 T it js xT
          hTcount hjTd hkxT hfirstT
        have hjdF : js < F.tasks.length := by
          rcases List.getElem?_eq_some.mp hFd with ⟨hl, _⟩
          exact hl
        have hjdT : js < T.tasks.length := by omega
        have hxcomp : xT.completed_at = tFd.completed_at :=
          (himmc js tFd xT hFd hjTd).2
        have hdone : it.2.status = "DONE" → ¬ tFd.completed_at = none := by
          intro hd
          obtain ⟨c, hc⟩ := updateTask_completed_done_some now1 it.2 xs hd
          rw [hcompFd c hc]
          simp
        have hinv2 : SimInv F
            ⟨S.tasks.set js (updateTask now1 it.2 xs), S.nextId,
              S.synced ++ [updateTask now1 it.2 xs]⟩
            ⟨T.tasks.set js (updateTask now2 it.2 xT), T.nextId,
              T.synced ++ [updateTask now2 it.2 xT]⟩ := by
          refine ⟨by simpa using hlen, hnid, ?_, ?_, ?_⟩
          · intro j tF tT hF hT
            by_cases hj : j = js
            · subst hj
              have htT : tT = updateTask now2 it.2 xT := by
                rw [show (⟨T.tasks.set j (updateTask now2 it.2 xT), T.nextId,
                  T.synced ++ [updateTask now2 it.2 xT]⟩ : SyncState).tasks =
                  T.tasks.set j (updateTask now2 it.2 xT) from rfl,
                  List.getElem?_set_self (by simpa using hjdT)] at hT
                exact (Option.some.inj hT).symm
              have htF : tF = tFd := by
                rw [hFd] at hF
                exact (Option.some.inj hF).symm
              subst htT
              subst htF
              exact ⟨(immutFields_updateTask now2 it.2 xT).trans himmxT,
                updateTask_completed_match now2 it.2 hxcomp hdone⟩
            · have hT' : T.tasks[j]? = some tT := by
                rw [show (⟨T.tasks.set js (updateTask now2 it.2 xT), T.nextId,
                  T.synced ++ [updateTask now2 it.2 xT]⟩ : SyncState).tasks =
                  T.tasks.set js (updateTask now2 it.2 xT) from rfl,
                  List.getElem?_set_ne (by omega)] at hT
                exact hT
              exact himmc j tF tT hF hT'
          · intro j tF tT hF hT
            by_cases hj : j = js
            · subst hj
              have htT : tT = updateTask now2 it.2 xT := by
                rw [show (⟨T.tasks.set j (updateTask now2 it.2 xT), T.nextId,
                  T.synced ++ [updateTask now2 it.2 xT]⟩ : SyncState).tasks =
                  T.tasks.set j (updateTask now2 it.2 xT) from rfl,
                  List.getElem?_set_self (by simpa using hjdT)] at hT
                exact (Option.some.inj hT).symm
              subst htT
              exact Or.inr ⟨updateTask now1 it.2 xs, hjd1, rfl⟩
            · have hT' : T.tasks[j]? = some tT := by
                rw [show (⟨T.tasks.set js (updateTask now2 it.2 xT), T.nextId,
                  T.synced ++ [updateTask now2 it.2 xT]⟩ : SyncState).tasks =
                  T.tasks.set js (updateTask now2 it.2 xT) from rfl,
                  List.getElem?_set_ne (by omega)] at hT
                exact hT
              rcases hmut j tF tT hF hT' with hleft | ⟨tS, hS, hm⟩
              · exact Or.inl hleft
              · exact Or.inr ⟨tS, by
                  rw [show (⟨S.tasks.set js (updateTask now1 it.2 xs), S.nextId,
                    S.synced ++ [updateTask now1 it.2 xs]⟩ : SyncState).tasks =
                    S.tasks.set js (updateTask now1 it.2 xs) from rfl,
                    List.getElem?_set_ne (by omega)]
                  exact hS, hm⟩
          · intro j tF tT hjge hF hT
            have hjge' : S.tasks.length ≤ j := by simpa using hjge
            have hT' : T.tasks[j]? = some tT := by
              rw [show (⟨T.tasks.set js (updateTask now2 it.2 xT), T.nextId,
                T.synced ++ [updateTask now2 it.2 xT]⟩ : SyncState).tasks =
                T.tasks.set js (updateTask now2 it.2 xT) from rfl,
                List.getElem?_set_ne (by omega)] at hT
              exact hT
            exact htail j tF tT hjge' hF hT'
        obtain ⟨T', hT', hfin⟩ := runItems_sim ssid uid now1 now2 its _ _ F h hinv2
        refine ⟨T', ?_, hfin⟩
        show (match applyItem ssid uid now2 T it with
          | Except.error e => Except.error e
          | Except.ok s1 => runItems ssid uid now2 s1 its) = Except.ok T'
        rw [happ2]
        exact hT'
      · rw [applyItem_multi ssid uid now1 S it n hcnt] at happ1
        exact absurd happ1 (by simp)

/-- First sync run over the LINEAR fixture database. -/
def c1Run1 : Except PyErr (DB × List TaskRow) := sync linDB 100 1 "bob" ["LINEAR"]

/-- Database after the first sync run. -/
def c1DB1 : DB := okSyncDB c1Run1

/-- Task list returned by the first sync run. -/
def c1L1 : List TaskRow := okSyncList c1Run1

/-- Second sync run, over the database the first run produced. -/
def c1Run2 : Except PyErr (DB × List TaskRow) := sync c1DB1 200 1 "bob" ["LINEAR"]

/-- Database after the second sync run. -/
def c1DB2 : DB := okSyncDB c1Run2

/-- Task list returned by the second sync run. -/
def c1L2 : List TaskRow := okSyncList c1Run2

/-- C1: syncing twice in succession with the connector documents
unchanged yields, after the second call, the same number of task rows and
rows equal to the first call's on every field except `updated_at` — no
duplicates are created and no data changes. -/
theorem C1_sync_idempotent (db db1 db2 : DB) (l1 l2 : List TaskRow) (now1 now2 : Int)
    (ssid : Nat) (uid : String) (cts : List String)
    (h1 : sync db now1 ssid uid cts = .ok (db1, l1))
    (h2 : sync db1 now2 ssid uid cts = .ok (db2, l2)) :
    db2.tasks.length = db1.tasks.length ∧ List.Forall₂ TaskEqMod db1.tasks db2.tasks := by
  unfold sync at h1 h2
  revert h1
  cases hrun1 : runDocs ssid uid now1 ⟨db.tasks, db.nextTaskId, []⟩
      (selectedDocs db ssid cts) with
  | error e =>
    intro h1
    exact absurd h1 (by simp)
  | ok s1 =>
    intro h1
    injection h1 with hpair1
    injection hpair1 with hdb1 hl1
    subst hdb1
    have h2' : (match runDocs ssid uid now2 ⟨s1.tasks, s1.nextId, []⟩
        (selectedDocs db ssid cts) with
      | Except.error e => Except.error e
      | Except.ok s => Except.ok
          ({ documents := db.documents, chats := db.chats, tasks := s.tasks,
             nextTaskId := s.nextId }, s.synced)) = Except.ok (db2, l2) := h2
    revert h2'
    cases hrun2 : runDocs ssid uid now2 ⟨s1.tasks, s1.nextId, []⟩
        (selectedDocs db ssid cts) with
    | error e =>
      intro h2'
      exact absurd h2' (by simp)
    | ok s2 =>
      intro h2'
      injection h2' with hpair2
      injection hpair2 with hdb2 hl2
      subst hdb2
      obtain ⟨its, hits, hruni1⟩ :=
        (runDocs_ok_iff ssid uid now1 (selectedDocs db ssid cts) _ s1).mp hrun1
      obtain ⟨its2, hits2, hruni2⟩ :=
        (runDocs_ok_iff ssid uid now2 (selectedDocs db ssid cts) _ s2).mp hrun2
      have hsame : its2 = its := by
        have := hits.symm.trans hits2
        injection this with hthis
        exact hthis.symm
      rw [hsame] at hruni2
      have hinv0 : SimInv s1 ⟨db.tasks, db.nextTaskId, []⟩ ⟨s1.tasks, s1.nextId, []⟩ := by
        refine ⟨rfl, rfl, ?_, ?_, ?_⟩
        · intro j tF tT hF hT
          have heq : tT = tF := by
            rw [hF] at hT
            exact (Option.some.inj hT).symm
          subst heq
          exact ⟨rfl, rfl⟩
        · intro j tF tT hF hT
          have heq : tT = tF := by
            rw [hF] at hT
            exact (Option.some.inj hT).symm
          subst heq
          exact Or.inl rfl
        · intro j tF tT _ hF hT
          rw [hF] at hT
          exact (Option.some.inj hT).symm
      obtain ⟨T', hT', hfin⟩ := runItems_sim ssid uid now1 now2 its
        ⟨db.tasks, db.nextTaskId, []⟩ ⟨s1.tasks, s1.nextId, []⟩ s1 hruni1 hinv0
      have hTs2 : T' = s2 := by
        have := hT'.symm.trans hruni2
        injection this
      subst hTs2
      obtain ⟨hlenf, _, himmf, hmutf, _⟩ := hfin
      constructor
      · exact hlenf
      · refine forall₂_of_idx hlenf.symm ?_
        intro j x y hx hy
        obtain ⟨himm, hcomp⟩ := himmf j x y hx hy
        refine ⟨himm.symm, ?_, hcomp.symm⟩
        rcases hmutf j x y hx hy with hleft | ⟨tS, hS, hm⟩
        · exact hleft.symm
        · have : tS = x := by
            rw [hx] at hS
            exact (Option.some.inj hS).symm
          subst this
          exact hm.symm

/-- Witness for C1 on the LINEAR fixture: both sync runs succeed, the
second run adds no task rows, and every row after run two equals its run
one counterpart on all fields except `updated_at`. -/
theorem C1_witness :
    c1DB2.tasks.length = c1DB1.tasks.length ∧
      List.Forall₂ TaskEqMod c1DB1.tasks c1DB2.tasks :=
  C1_sync_idempotent linDB c1DB1 c1DB2 c1L1 c1L2 100 200 1 "bob" ["LINEAR"] rfl rfl
